import Mathlib

/-!
Shallow embedding of the Go Fish engine (`fish_lib/game.py`) and of the
player strategies (`fish_lib/players.py`).

Cards are pairs `(rank, suit)`.  `RANKS` has the 13 entries `'2' … 'Ace'`
and `SUITS` the 4 entries `'Spades', 'Clubs', 'Hearts', 'Diamond'`; we
encode a rank by its position in `RANKS` (`Fin 13`) and a suit by its
position in `SUITS` (`Fin 4`).  Python player objects are mutable and
compared by identity; we represent the roster as a list of player states
and use the position in that list as a player's identity.

Randomness is resolved by explicit inputs: `random.shuffle` is modelled by
passing the shuffled deck (a permutation of the old deck) as an argument,
and `random.choice(xs)` is modelled as `xs.getD (k % xs.length) _` for an
arbitrary oracle index `k`.
-/

/-- Ranks, encoded by position in `RANKS = ('2', …, 'Ace')`. -/
abbrev Rank := Fin 13

/-- Suits, encoded by position in `SUITS = ('Spades', 'Clubs', 'Hearts', 'Diamond')`. -/
abbrev Suit := Fin 4

/-- A card tuple in format `(RANK, SUIT)`. -/
abbrev Card := Rank × Suit

/-- The tuple `SUITS` of `game.py`, as the list of its positions. -/
def SUITS : List Suit := List.finRange 4

/-- The deck `BASE_DECK = tuple(itertools.product(RANKS, SUITS))`: ranks in the
outer loop, suits in the inner loop. -/
def BASE_DECK : List Card :=
  (List.finRange 13).flatMap fun r => SUITS.map fun s => (r, s)

/-- A Python runtime value as it can appear in the duck-typed arguments of
`TryingPlayer.hear_confirm` (see `doNotify` below: the engine passes the
Boolean `bool(won_cards)` where the method expects the requested face, and
the target player object where it expects the Boolean result). -/
inductive PyV where
  | rank (r : Rank)
  | bool (b : Bool)
  | player (i : Nat)
deriving DecidableEq

/-- Python truthiness of the values of `PyV`: player objects are always
truthy, a rank (a non-empty string) is truthy, a Bool is itself. -/
def pyTruthy : PyV → Bool
  | .rank _ => true
  | .bool b => b
  | .player _ => true

/-- Python's `card[0] == face` for a card rank `card[0]` and a duck-typed
`face`: a rank string compares equal only to the same rank string; comparing
it with a Bool (`'7' == True`) or with a player object yields `False`. -/
def pyEqRank (r : Rank) : PyV → Bool
  | .rank r2 => r == r2
  | _ => false

/-- The state of one player object (fields of `BasePlayer.__init__` plus the
`seen` dictionary that `TryingPlayer.__init__` adds).  `seen` models the dict
`face value ↦ player last seen with it`: `none` means the key is absent,
`some none` means the key is present with Python value `None`, and
`some (some i)` means the key is present and names player `i`. -/
structure PlayerState where
  hand : List Card
  books : List Rank
  playing : Bool
  seen : Rank → Option (Option Nat)

/-- A freshly constructed player: empty hand, no books, playing, empty memory. -/
instance : Inhabited PlayerState :=
  ⟨⟨[], [], true, fun _ => none⟩⟩

/-- The method `BasePlayer.count_copies(self, face)`.  The comparison
`card[0] == face` is duck-typed, so `face` is modelled as a `PyV`. -/
def count_copies (p : PlayerState) (face : PyV) : Nat :=
  (p.hand.filter fun c => pyEqRank c.1 face).length

/-- The method `TryingPlayer.hear_ask(self, a_player, face, r_player)`:
`self.seen[face] = a_player` (the `r_player` argument is unused). -/
def hear_ask (p : PlayerState) (a_player : Nat) (face : Rank) (_r_player : Nat) : PlayerState :=
  { p with seen := fun f => if f = face then some (some a_player) else p.seen f }

/-- The method `TryingPlayer.hear_confirm(self, a_player, face, r_player, result)`:
if `result and a_player.count_copies(face) == 4` then `self.seen[face] = None`.
The `face` and `result` arguments are duck-typed because `do_turn` passes them
in a scrambled order, so they are modelled as `PyV`.  When `face` is not a
rank the write `self.seen[face] = None` would create a key that no later read
(all reads use rank keys) can see; that arm is modelled as a no-op on `seen`
(it is in fact unreachable, since `count_copies` of a non-rank is `0 ≠ 4`). -/
def hear_confirm (p : PlayerState) (a_player : PlayerState) (face : PyV) (_r_player : PyV)
    (result : PyV) : PlayerState :=
  if pyTruthy result && (count_copies a_player face == 4) then
    { p with seen := fun f => match face with
        | .rank r => if f = r then some none else p.seen f
        | _ => p.seen f }
  else p

/-- The method `DumbPlayer.confirm_ask(self, face)` (inherited by
`TryingPlayer`): hand over all cards whose face value equals `face`.  The
Python loop removes each matching card from `self.hand` and appends it to
`given_cards`; the net effect is to split the hand by the filter.  Returns
`(given_cards, updated player)`. -/
def confirm_ask (p : PlayerState) (face : Rank) : List Card × PlayerState :=
  (p.hand.filter fun c => c.1 == face,
   { p with hand := p.hand.filter fun c => !(c.1 == face) })

/-- The method `DumbPlayer.ask_for_card(self, players)`:
`return choice(self.hand)[0], choice([x for x in players if x != self])`.
`players` is the list of (indices of) valid players; `selfIdx` is this
player's identity; `k1, k2` resolve the two `random.choice` calls. -/
def DumbPlayer.ask_for_card (p : PlayerState) (selfIdx : Nat) (players : List Nat)
    (k1 k2 : Nat) : Rank × Nat :=
  let others := players.filter fun x => x ≠ selfIdx
  ((p.hand.getD (k1 % p.hand.length) ((0 : Rank), (0 : Suit))).1,
   others.getD (k2 % others.length) 0)

/-- The informed options computed by `TryingPlayer.ask_for_card`:
`poss_targets = set(self.seen.keys()).intersection(card[0] for card in self.hand)`
then `filter(lambda f: self.seen.get(f) in players, poss_targets)` — the
ranks that have a `seen` entry, of which this player holds at least one
card, and whose recorded holder is (a player index) in `players`.  An entry
whose stored value is Python `None` (`some none`) fails the membership test. -/
def informedOptions (p : PlayerState) (players : List Nat) : List Rank :=
  (List.finRange 13).filter fun f =>
    (p.seen f).isSome && (p.hand.any fun c => c.1 == f) &&
      (match p.seen f with
       | some (some i) => players.contains i
       | _ => false)

/-- The method `TryingPlayer.ask_for_card(self, players)`: if the informed
options are non-empty pick one (`choice`, resolved by `k`), target the
player recorded for it and `pop` that `seen` entry; otherwise fall back to
`DumbPlayer.ask_for_card` (whose `choice` calls are resolved by `k1, k2`).
Returns the request together with the updated player state. -/
def TryingPlayer.ask_for_card (p : PlayerState) (selfIdx : Nat) (players : List Nat)
    (k k1 k2 : Nat) : (Rank × Nat) × PlayerState :=
  let poss := informedOptions p players
  if poss ≠ [] then
    let selected_face := poss.getD (k % poss.length) 0
    let selected_player := ((p.seen selected_face).getD none).getD 0
    ((selected_face, selected_player),
     { p with seen := fun f => if f = selected_face then none else p.seen f })
  else
    (DumbPlayer.ask_for_card p selfIdx players k1 k2, p)

/-- The state of a `BasicGoFish` object: the deck, the roster (in order) and
the index of the active player. -/
structure GameState where
  deck : List Card
  players : List PlayerState
  active_player_idx : Nat

/-- Number of cards of rank `r` in a hand, as computed by the dictionary
`rank_count` of `check_player_for_book`. -/
def countRank (hand : List Card) (r : Rank) : Nat :=
  (hand.filter fun c => c.1 == r).length

/-- The ranks of a hand in order of first occurrence: the key order of the
insertion-ordered Python dict `rank_count`. -/
def rankList (hand : List Card) : List Rank :=
  hand.foldl (fun acc c => if c.1 ∈ acc then acc else acc ++ [c.1]) []

/-- The ranks selected by `filter(lambda r: rank_count[r] == 4, rank_count)`. -/
def bookRanks (hand : List Card) : List Rank :=
  (rankList hand).filter fun r => countRank hand r == 4

/-- Python's `list.remove`: drop the first occurrence of `a` (the Python
call raises if `a` is absent; in the engine it is only ever reached when the
card is present). -/
def eraseCard : List Card → Card → List Card
  | [], _ => []
  | c :: t, a => if c = a then t else c :: eraseCard t a

/-- The four cards `itertools.product((book,), SUITS)` of one book. -/
def bookCardsList (r : Rank) : List Card := SUITS.map fun s => (r, s)

/-- The inner loop of `check_player_for_book`: remove the four cards of the
book `r` from the hand, one `player.hand.remove(card)` at a time. -/
def removeBook (hand : List Card) (r : Rank) : List Card :=
  (bookCardsList r).foldl eraseCard hand

/-- The static method `BasicGoFish.check_player_for_book(player)`: every
rank held exactly 4 times is removed from the hand and appended to the
player's book list. -/
def check_player_for_book (p : PlayerState) : PlayerState :=
  { p with hand := (bookRanks p.hand).foldl removeBook p.hand,
           books := p.books ++ bookRanks p.hand }

/-- The method `BasicGoFish.draw_card(self, player, draw_amount=1)`: if the
deck holds at least `draw_amount` cards, pop that many from the front onto
the end of player `i`'s hand and return `True`; otherwise change nothing and
return `False`. -/
def draw_card (g : GameState) (i : Nat) (draw_amount : Nat := 1) : GameState × Bool :=
  if draw_amount ≤ g.deck.length then
    let p := g.players.getD i default
    ({ g with deck := g.deck.drop draw_amount,
              players := g.players.set i { p with hand := p.hand ++ g.deck.take draw_amount } },
     true)
  else (g, false)

/-- The `valid_players = [p for p in self.players if p.playing]` list of
`do_turn`, as the list of their indices in roster order. -/
def validIdxs (g : GameState) : List Nat :=
  (List.range g.players.length).filter fun i => (g.players.getD i default).playing

/-- Python's `list.index` on a list of player identities (first position of
`a`; the engine only calls it on members). -/
def indexOfN (a : Nat) : List Nat → Nat
  | [] => 0
  | b :: t => if b = a then 0 else indexOfN a t + 1

/-- Map a function that may depend on the roster position over a player
list (used for the notification loop of `do_turn`). -/
def mapWithIndex (f : Nat → PlayerState → PlayerState) : Nat → List PlayerState → List PlayerState
  | _, [] => []
  | i, p :: ps => f i p :: mapWithIndex f (i + 1) ps

/-- Line `won_cards = r_player.confirm_ask(r_face)` of `do_turn`: run
`confirm_ask` on the target and store the updated target back in the roster. -/
def doConfirm (g : GameState) (r_face : Rank) (r_tgt : Nat) : List Card × GameState :=
  let tgt := g.players.getD r_tgt default
  let res := confirm_ask tgt r_face
  (res.1, { g with players := g.players.set r_tgt res.2 })

/-- The notification loop of `do_turn`: every valid player other than the
asker and the target gets `hear_ask(active_player, r_face, r_player)` and
then `hear_confirm(active_player, bool(won_cards), r_face, r_player)`.
Note the scrambled argument order of the `hear_confirm` call, reproduced
here literally: the method's `face` parameter receives the Boolean
`bool(won_cards)` and its `result` parameter receives the player object.
`aState` is the active player's state at this point (the won cards have not
yet been added to their hand). -/
def doNotify (g : GameState) (valid : List Nat) (aIdx : Nat) (r_face : Rank) (r_tgt : Nat)
    (won : List Card) : GameState :=
  let aState := g.players.getD aIdx default
  { g with players := mapWithIndex (fun i p =>
      if i ∈ valid ∧ i ≠ aIdx ∧ i ≠ r_tgt then
        hear_confirm (hear_ask p aIdx r_face r_tgt) aState
          (PyV.bool (!won.isEmpty)) (PyV.rank r_face) (PyV.player r_tgt)
      else p) 0 g.players }

/-- One elimination check of `do_turn`: `if not player.hand: player.playing
= False` for the player at index `i`. -/
def elimIfEmpty (g : GameState) (i : Nat) : GameState :=
  let p := g.players.getD i default
  if p.hand.isEmpty then { g with players := g.players.set i { p with playing := false } }
  else g

/-- The `if won_cards:` branch of `do_turn`: extend the active player's hand
with the won cards and, when the deck is now empty, mark first the target and
then the active player as not playing if their hands are empty. -/
def doWin (g : GameState) (aIdx r_tgt : Nat) (won : List Card) : GameState :=
  let a := g.players.getD aIdx default
  let g1 := { g with players := g.players.set aIdx { a with hand := a.hand ++ won } }
  if g1.deck.isEmpty then elimIfEmpty (elimIfEmpty g1 r_tgt) aIdx
  else g1

/-- Line `self.check_player_for_book(active_player)` of `do_turn`. -/
def doBook (g : GameState) (aIdx : Nat) : GameState :=
  { g with players := g.players.set aIdx (check_player_for_book (g.players.getD aIdx default)) }

/-- The final two lines of `do_turn`: advance the active index to the next
player after the active one in the `valid_players` list captured earlier in
the turn (`self.players.index` of a player object is that player's index). -/
def doRotate (g : GameState) (valid : List Nat) (aIdx : Nat) : GameState :=
  { g with active_player_idx := valid.getD ((indexOfN aIdx valid + 1) % valid.length) 0 }

/-- Lines 102–137 of `do_turn`: everything after the request `(r_face,
r_player)` has been obtained from the active player: the card exchange, the
notifications, the go-fish draw or the win-and-eliminate branch, the book
check on the active player, and the rotation of the active index. -/
def runRequest (g : GameState) (valid : List Nat) (aIdx : Nat) (r_face : Rank) (r_tgt : Nat) :
    GameState :=
  let c := doConfirm g r_face r_tgt
  let g4 := doNotify c.2 valid aIdx r_face r_tgt c.1
  let g5 := if !c.1.isEmpty then doWin g4 aIdx r_tgt c.1 else (draw_card g4 aIdx 1).1
  doRotate (doBook g5 aIdx) valid aIdx

/-- The shape of a strategy's `ask_for_card` as the engine sees it: from the
asker's index, the valid players and the asker's state, produce the request
`(r_face, r_player)` and the asker's updated state (the strategies are
randomized, so the engine theorems quantify over this function). -/
abbrev AskFn := Nat → List Nat → PlayerState → (Rank × Nat) × PlayerState

/-- The first lines of `do_turn`: `if not active_player.hand:
active_player.playing = self.draw_card(active_player)`.  Returns the game
state after this step together with the active player's state (so that the
following `if not active_player.playing` test can consult it). -/
def phase1 (g : GameState) : GameState × PlayerState :=
  let aIdx := g.active_player_idx
  let a0 := g.players.getD aIdx default
  if a0.hand.isEmpty then
    let d := draw_card g aIdx 1
    let pd := d.1.players.getD aIdx default
    let pd2 := { pd with playing := d.2 }
    ({ d.1 with players := d.1.players.set aIdx pd2 }, pd2)
  else (g, a0)

/-- The method `BasicGoFish.do_turn(self)`: if the active player's hand is
empty they must draw, and `playing` is set to the draw's success (`phase1`);
a player who is then not playing just passes the turn to
`(idx + 1) % len(players)`; otherwise the active player's
`ask_for_card(valid_players)` is consulted (modelled by the `ask` oracle,
which also returns the asker's updated state) and the request is carried out
by `runRequest`. -/
def do_turn (g : GameState) (ask : AskFn) : GameState :=
  let s1 := phase1 g
  let g1 := s1.1
  if s1.2.playing then
    let valid := validIdxs g1
    let req := ask g.active_player_idx valid (g1.players.getD g.active_player_idx default)
    runRequest { g1 with players := g1.players.set g.active_player_idx req.2 } valid
      g.active_player_idx req.1.1 req.1.2
  else { g1 with active_player_idx := (g.active_player_idx + 1) % g.players.length }

/-- The property `BasicGoFish.done`: no player is playing and the deck is
empty (`not ([p for p in players if p.playing] or deck)`). -/
def done (g : GameState) : Bool :=
  (g.players.filter fun p => p.playing).isEmpty && g.deck.isEmpty

/-- The value `best_score = max(len(play.books) for play in self.players)`.
Python's `max` raises on an empty roster; `foldr max 0` agrees with it on
every non-empty roster. -/
def maxBooks (g : GameState) : Nat :=
  (g.players.map fun p => p.books.length).foldr max 0

/-- The property `BasicGoFish.winner`: `None` before the game is done, and
afterwards the list of all players whose book count equals the best score. -/
def winner (g : GameState) : Option (List PlayerState) :=
  if done g then some (g.players.filter fun p => p.books.length == maxBooks g) else none

/-- The dealing loop of `setup_game`: each player in roster order gets
`playing = True` and a fresh hand `deck[:card_count]`, and the deck becomes
`deck[card_count:]`.  Returns the updated roster and the remaining deck. -/
def dealHands (cc : Nat) : List PlayerState → List Card → List PlayerState × List Card
  | [], d => ([], d)
  | p :: ps, d =>
    let rest := dealHands cc ps (d.drop cc)
    ({ p with playing := true, hand := d.take cc } :: rest.1, rest.2)

/-- The method `BasicGoFish.setup_game(self)`: shuffle the deck (the result
of the shuffle is passed in as `shuffled`), reset the active index to 0 and
deal `5 if len(players) > 4 else 7` cards to each player in roster order. -/
def setup_game (g : GameState) (shuffled : List Card) : GameState :=
  let cc := if 4 < g.players.length then 5 else 7
  let res := dealHands cc g.players shuffled
  { deck := res.2, players := res.1, active_player_idx := 0 }

/-- The constructor `BasicGoFish.__init__(players)`: a fresh 52-card deck in
base order, active index 0. -/
def initGame (roster : List PlayerState) : GameState :=
  { deck := BASE_DECK, players := roster, active_player_idx := 0 }

/-- A strategy only updates its memory when asked for a request: the hand,
the book list and the playing flag of the returned player state are those of
the argument.  Both `DumbPlayer.ask_for_card` (which returns its argument
unchanged) and `TryingPlayer.ask_for_card` (which only pops a `seen` entry)
have this property. -/
def AskOnlySeen (ask : AskFn) : Prop :=
  ∀ i v p, ((ask i v p).2).hand = p.hand ∧ ((ask i v p).2).books = p.books ∧
    ((ask i v p).2).playing = p.playing

/-- Game states reachable from `BasicGoFish(roster)` by one `setup_game`
(with an arbitrary shuffle) followed by any number of `do_turn` calls with
arbitrary strategies. -/
inductive Reachable (roster : List PlayerState) : GameState → Prop where
  | setup : ∀ shuffled : List Card, shuffled.Perm BASE_DECK →
      Reachable roster (setup_game (initGame roster) shuffled)
  | step : ∀ g ask, AskOnlySeen ask → Reachable roster g → Reachable roster (do_turn g ask)

/-- The four cards of one book, as a multiset. -/
def bookCards (r : Rank) : Multiset Card := (bookCardsList r : List Card)

/-- The cards of a list of books, as a multiset. -/
def bookCardsSum (rs : List Rank) : Multiset Card := (rs.map bookCards).sum

/-- Sum of a card-multiset measure over a roster. -/
def sumM (m : PlayerState → Multiset Card) (l : List PlayerState) : Multiset Card :=
  (l.map m).sum

/-- All cards in all hands of a roster, as a multiset. -/
def handsM (l : List PlayerState) : Multiset Card :=
  sumM (fun p => (p.hand : Multiset Card)) l

/-- The cards bound in one player's completed books. -/
def playerBooksM (p : PlayerState) : Multiset Card :=
  (p.books.map bookCards).sum

/-- The cards bound in all completed books of a roster. -/
def booksM (l : List PlayerState) : Multiset Card :=
  sumM playerBooksM l

/-- Every card of the game, wherever it lives: hands, books, deck. -/
def totalM (g : GameState) : Multiset Card :=
  handsM g.players + booksM g.players + (g.deck : Multiset Card)

/-- The full 52-card deck as a multiset. -/
def fullDeckM : Multiset Card := (BASE_DECK : List Card)

/-- Total number of cards held in hands. -/
def cardsInHands (g : GameState) : Nat :=
  (g.players.map fun p => p.hand.length).sum

/-- Total number of completed books across all players. -/
def totalBooksCount (g : GameState) : Nat :=
  (g.players.map fun p => p.books.length).sum

/-- Modelled from the spec: a round-robin deal ("deal initial hand sizes …
round-robin in roster order") hands the cards of the shuffled deck out one
at a time, cycling through the `n` players, for `cc` rounds; player `i`
receives the cards at positions `i, n + i, 2n + i, …`.  Used only to compare
the spec's wording with the block deal the code performs. -/
def specRoundRobinHand (shuffled : List Card) (n cc i : Nat) : List Card :=
  (List.range cc).map fun j => shuffled.getD (j * n + i) ((0 : Rank), (0 : Suit))

/-- The invariant carried through the reachability induction: every card of
the game is accounted for exactly once, and the active index is in range. -/
def INV (g : GameState) : Prop :=
  totalM g = fullDeckM ∧ g.active_player_idx < g.players.length

/-- A player whose playing flag is false holds no cards. -/
def PlayingInv (l : List PlayerState) : Prop :=
  ∀ i, i < l.length → ((l.getD i default).playing = false → (l.getD i default).hand = [])

/-- The concrete state for the C2 counterexample: the active player 0 holds
one card and is playing; player 1 is still `playing` with an empty hand (a
state the engine itself produces when a player gives away their last cards
while the deck still has cards, the deck then running out); the deck is
empty. -/
def gC2 : GameState :=
  { deck := [],
    players :=
      [{ hand := [((0 : Rank), (0 : Suit))], books := [], playing := true,
         seen := fun _ => none },
       { hand := [], books := [], playing := true, seen := fun _ => none }],
    active_player_idx := 0 }

/-- The request made in the C2 counterexample: player 0 asks player 1 for
rank 0 (its only rank).  The strategy leaves its memory untouched. -/
def askC2 : AskFn := fun _ _ p => ((0, 1), p)

/-- The concrete state for the C2 amended-claim witness: like `gC2` but the
target (player 1) holds a card of the requested rank, so the request
succeeds. -/
def gC2w : GameState :=
  { deck := [],
    players :=
      [{ hand := [((0 : Rank), (0 : Suit))], books := [], playing := true,
         seen := fun _ => none },
       { hand := [((0 : Rank), (1 : Suit))], books := [], playing := true,
         seen := fun _ => none }],
    active_player_idx := 0 }

/-- The concrete state for the C1 failing input: active player 0 holds three
cards of rank 0, player 1 holds the fourth, player 2 observes with empty
memory; the deck is empty. -/
def gC1 : GameState :=
  { deck := [],
    players :=
      [{ hand := [((0 : Rank), (0 : Suit)), (0, 1), (0, 2)], books := [], playing := true,
         seen := fun _ => none },
       { hand := [((0 : Rank), (3 : Suit))], books := [], playing := true,
         seen := fun _ => none },
       { hand := [((5 : Rank), (0 : Suit))], books := [], playing := true,
         seen := fun _ => none }],
    active_player_idx := 0 }

/-- An 11-player roster of fresh players (for the C3 counterexample). -/
def roster11 : List PlayerState := List.replicate 11 default

/-- A 6-player roster of fresh players (for the C3 witness). -/
def roster6 : List PlayerState := List.replicate 6 default

/-- A finished two-player game (for the C6 witness): both players are out,
the deck is empty, player 0 has one book. -/
def gC6 : GameState :=
  { deck := [],
    players :=
      [{ hand := [], books := [(0 : Rank)], playing := false, seen := fun _ => none },
       { hand := [], books := [], playing := false, seen := fun _ => none }],
    active_player_idx := 0 }

/-- A memorizing player for the C7 witness: holds one card of rank 0 and
remembers that player 1 asked for rank 0. -/
def p7 : PlayerState :=
  { hand := [((0 : Rank), (0 : Suit))], books := [], playing := true,
    seen := fun f => if f = 0 then some (some 1) else none }

/-! ## Generic list lemmas -/

theorem list_set_oob {α : Type} (l : List α) (i : Nat) (p : α) (h : l.length ≤ i) :
    l.set i p = l := by
  induction l generalizing i with
  | nil => rfl
  | cons a t ih =>
    cases i with
    | zero => simp at h
    | succ n => simpa using ih n (by simpa using h)

theorem getD_set_self {α : Type} (l : List α) (i : Nat) (p d : α) (h : i < l.length) :
    (l.set i p).getD i d = p := by
  induction l generalizing i with
  | nil => simp at h
  | cons a t ih =>
    cases i with
    | zero => rfl
    | succ n => simpa using ih n (by simpa using h)

theorem getD_set_ne {α : Type} (l : List α) (i j : Nat) (p : α) (d : α) (h : i ≠ j) :
    (l.set i p).getD j d = l.getD j d := by
  induction l generalizing i j with
  | nil => rfl
  | cons a t ih =>
    cases i with
    | zero =>
      cases j with
      | zero => exact absurd rfl h
      | succ m => rfl
    | succ n =>
      cases j with
      | zero => rfl
      | succ m => simpa using ih n m (fun e => h (by rw [e]))

theorem getD_mem {α : Type} (l : List α) (i : Nat) (d : α) (h : i < l.length) :
    l.getD i d ∈ l := by
  rw [List.getD_eq_getElem l d h]; exact List.getElem_mem _

theorem length_set_eq {α : Type} (l : List α) (i : Nat) (p : α) :
    (l.set i p).length = l.length := List.length_set l i p

/-! ## Lemmas about `mapWithIndex` -/

theorem length_mapWithIndex (f : Nat → PlayerState → PlayerState) (i0 : Nat)
    (l : List PlayerState) : (mapWithIndex f i0 l).length = l.length := by
  induction l generalizing i0 with
  | nil => rfl
  | cons a t ih => simpa [mapWithIndex] using ih (i0 + 1)

theorem getD_mapWithIndex (f : Nat → PlayerState → PlayerState) (i0 : Nat)
    (l : List PlayerState) (j : Nat) (d : PlayerState) (h : j < l.length) :
    (mapWithIndex f i0 l).getD j d = f (i0 + j) (l.getD j d) := by
  induction l generalizing i0 j with
  | nil => simp at h
  | cons a t ih =>
    cases j with
    | zero => rfl
    | succ m =>
      have := ih (i0 + 1) m (by simpa using h)
      simpa [mapWithIndex, Nat.add_comm, Nat.add_assoc, Nat.add_left_comm] using this

/-! ## Lemmas about the card-multiset measures -/

theorem sumM_nil (m : PlayerState → Multiset Card) : sumM m [] = 0 := rfl

theorem sumM_cons (m : PlayerState → Multiset Card) (a : PlayerState) (t : List PlayerState) :
    sumM m (a :: t) = m a + sumM m t := by simp [sumM]

theorem sumM_set (m : PlayerState → Multiset Card) (l : List PlayerState) (i : Nat)
    (p : PlayerState) (h : i < l.length) :
    sumM m (l.set i p) + m (l.getD i default) = sumM m l + m p := by
  induction l generalizing i with
  | nil => simp at h
  | cons a t ih =>
    cases i with
    | zero => simp [sumM_cons]; abel
    | succ n =>
      have hn : n < t.length := by simpa using h
      have := ih n hn
      simp only [List.set, sumM_cons, List.getD]
      calc m a + sumM m (t.set n p) + m (t.getD n default)
          = m a + (sumM m (t.set n p) + m (t.getD n default)) := by abel
        _ = m a + (sumM m t + m p) := by rw [this]
        _ = m a + sumM m t + m p := by abel

theorem sumM_getD_le (m : PlayerState → Multiset Card) (l : List PlayerState) (i : Nat)
    (h : i < l.length) : m (l.getD i default) ≤ sumM m l := by
  induction l generalizing i with
  | nil => simp at h
  | cons a t ih =>
    cases i with
    | zero => simp only [List.getD, sumM_cons]; exact Multiset.le_add_right _ _
    | succ n =>
      have := ih n (by simpa using h)
      simp only [List.getD] at this ⊢
      calc m ((a :: t).getD (n + 1) default) = m (t.getD n default) := rfl
        _ ≤ sumM m t := this
        _ ≤ sumM m (a :: t) := by rw [sumM_cons]; exact Multiset.le_add_left _ _

theorem sumM_mapWithIndex (m : PlayerState → Multiset Card)
    (f : Nat → PlayerState → PlayerState) (i0 : Nat) (l : List PlayerState)
    (h : ∀ i p, m (f i p) = m p) :
    sumM m (mapWithIndex f i0 l) = sumM m l := by
  induction l generalizing i0 with
  | nil => rfl
  | cons a t ih => simp [mapWithIndex, sumM_cons, h, ih (i0 + 1)]

/-! ## Lemmas about the book check -/

theorem eraseCard_cons_m (l : List Card) (a : Card) (h : a ∈ l) :
    (l : Multiset Card) = a ::ₘ ((eraseCard l a : List Card) : Multiset Card) := by
  induction l with
  | nil => cases h
  | cons c t ih =>
    by_cases hc : c = a
    · subst hc; simp [eraseCard]
    · have ht : a ∈ t := by
        rcases List.mem_cons.mp h with h1 | h2
        · exact absurd h1.symm hc
        · exact h2
      simp only [eraseCard, if_neg hc]
      calc ((c :: t : List Card) : Multiset Card) = c ::ₘ (t : Multiset Card) := by simp
        _ = c ::ₘ (a ::ₘ ((eraseCard t a : List Card) : Multiset Card)) := by rw [ih ht]
        _ = a ::ₘ c ::ₘ ((eraseCard t a : List Card) : Multiset Card) := Multiset.cons_swap c a _
        _ = a ::ₘ ((c :: eraseCard t a : List Card) : Multiset Card) := by simp

theorem foldl_eraseCard (cs : List Card) (l : List Card)
    (h : (cs : Multiset Card) ≤ (l : Multiset Card)) :
    ((cs.foldl eraseCard l : List Card) : Multiset Card) + (cs : Multiset Card)
      = (l : Multiset Card) := by
  induction cs generalizing l with
  | nil => simp
  | cons c cs ih =>
    have hc : c ∈ l := by
      have : c ∈ (l : Multiset Card) := Multiset.mem_of_le h (by simp)
      simpa using this
    have hrw := eraseCard_cons_m l c hc
    have hle : (cs : Multiset Card) ≤ ((eraseCard l c : List Card) : Multiset Card) := by
      have h2 : c ::ₘ (cs : Multiset Card) ≤ c ::ₘ ((eraseCard l c : List Card) : Multiset Card) := by
        rw [← hrw]; simpa using h
      exact (Multiset.cons_le_cons_iff c).mp h2
    have ih2 := ih (eraseCard l c) hle
    calc ((List.foldl eraseCard l (c :: cs) : List Card) : Multiset Card)
          + ((c :: cs : List Card) : Multiset Card)
        = ((cs.foldl eraseCard (eraseCard l c) : List Card) : Multiset Card)
          + (c ::ₘ (cs : Multiset Card)) := by simp [List.foldl]
      _ = c ::ₘ (((cs.foldl eraseCard (eraseCard l c) : List Card) : Multiset Card)
          + (cs : Multiset Card)) := Multiset.add_cons _ _ _
      _ = c ::ₘ ((eraseCard l c : List Card) : Multiset Card) := by rw [ih2]
      _ = (l : Multiset Card) := hrw.symm

theorem fullDeck_filter :
    ∀ r : Rank, Multiset.filter (fun c => (c.1 == r) = true) fullDeckM = bookCards r := by
  decide

theorem card_bookCards (r : Rank) : Multiset.card (bookCards r) = 4 := by
  simp [bookCards, bookCardsList, SUITS]

theorem filter_rank_eq_bookCards (hand : List Card) (r : Rank)
    (hle : (hand : Multiset Card) ≤ fullDeckM) (hc : countRank hand r = 4) :
    Multiset.filter (fun c => (c.1 == r) = true) (hand : Multiset Card) = bookCards r := by
  have h3 : ((hand.filter fun c => c.1 == r : List Card) : Multiset Card)
      = Multiset.filter (fun c => (c.1 == r) = true) (hand : Multiset Card) := by
    have hsame : (hand.filter fun c => c.1 == r) = hand.filter fun b => decide (b.1 = r) :=
      List.filter_congr fun a _ => by by_cases hx : a.1 = r <;> simp [hx]
    rw [hsame]; simp
  have h1 : Multiset.filter (fun c => (c.1 == r) = true) (hand : Multiset Card) ≤ bookCards r := by
    rw [← fullDeck_filter r]; exact Multiset.filter_le_filter _ hle
  have hcard : Multiset.card (bookCards r)
      ≤ Multiset.card (Multiset.filter (fun c => (c.1 == r) = true) (hand : Multiset Card)) := by
    rw [← h3, card_bookCards]
    simpa [countRank] using hc.ge
  exact Multiset.eq_of_le_of_card_le h1 hcard

theorem filter_bookCards_ne (r r2 : Rank) (h : r2 ≠ r) :
    Multiset.filter (fun c => (c.1 == r2) = true) (bookCards r) = 0 := by
  rw [Multiset.filter_eq_nil]
  intro a ha
  have ha2 : a.1 = r := by
    simp only [bookCards, bookCardsList, SUITS, Multiset.mem_coe, List.mem_map] at ha
    rcases ha with ⟨s, _, rfl⟩
    rfl
  simp [ha2, h.symm]

theorem foldl_removeBook (rs : List Rank) (hand : List Card) (hnd : rs.Nodup)
    (hall : ∀ r ∈ rs,
      Multiset.filter (fun c => (c.1 == r) = true) (hand : Multiset Card) = bookCards r) :
    ((rs.foldl removeBook hand : List Card) : Multiset Card) + bookCardsSum rs
      = (hand : Multiset Card) := by
  induction rs generalizing hand with
  | nil => simp [bookCardsSum]
  | cons r rs ih =>
    have hfr := hall r (List.mem_cons_self r rs)
    have hble : bookCards r ≤ (hand : Multiset Card) := by
      rw [← hfr]; exact Multiset.filter_le _ _
    have hrb : ((removeBook hand r : List Card) : Multiset Card) + bookCards r
        = (hand : Multiset Card) := by
      have hble2 : ((bookCardsList r : List Card) : Multiset Card) ≤ (hand : Multiset Card) := by
        simpa [bookCards] using hble
      simpa [removeBook, bookCards] using foldl_eraseCard (bookCardsList r) hand hble2
    have hall2 : ∀ r2 ∈ rs, Multiset.filter (fun c => (c.1 == r2) = true)
        ((removeBook hand r : List Card) : Multiset Card) = bookCards r2 := by
      intro r2 hr2
      have hne : r2 ≠ r := by
        intro e; subst e; exact (List.nodup_cons.mp hnd).1 hr2
      have hmem := hall r2 (List.mem_cons_of_mem r hr2)
      have hsplit : Multiset.filter (fun c => (c.1 == r2) = true)
            ((removeBook hand r : List Card) : Multiset Card)
          + Multiset.filter (fun c => (c.1 == r2) = true) (bookCards r)
          = Multiset.filter (fun c => (c.1 == r2) = true) (hand : Multiset Card) := by
        rw [← Multiset.filter_add, hrb]
      rw [filter_bookCards_ne r r2 hne, add_zero] at hsplit
      rw [hsplit, hmem]
    have hrec := ih (removeBook hand r) (List.nodup_cons.mp hnd).2 hall2
    calc ((List.foldl removeBook hand (r :: rs) : List Card) : Multiset Card)
          + bookCardsSum (r :: rs)
        = (((rs.foldl removeBook (removeBook hand r) : List Card) : Multiset Card)
          + bookCardsSum rs) + bookCards r := by
          simp only [List.foldl, bookCardsSum, List.map_cons, List.sum_cons]
          abel
      _ = ((removeBook hand r : List Card) : Multiset Card) + bookCards r := by rw [hrec]
      _ = (hand : Multiset Card) := hrb

theorem rankList_aux_nodup (hand : List Card) (acc : List Rank) (h : acc.Nodup) :
    (hand.foldl (fun acc c => if c.1 ∈ acc then acc else acc ++ [c.1]) acc).Nodup := by
  induction hand generalizing acc with
  | nil => exact h
  | cons c t ih =>
    simp only [List.foldl]
    by_cases hm : c.1 ∈ acc
    · rw [if_pos hm]; exact ih acc h
    · rw [if_neg hm]
      refine ih _ ?_
      simp [List.nodup_append, h, hm]

theorem rankList_nodup (hand : List Card) : (rankList hand).Nodup :=
  rankList_aux_nodup hand [] List.nodup_nil

theorem bookRanks_nodup (hand : List Card) : (bookRanks hand).Nodup :=
  (rankList_nodup hand).filter _

theorem bookRanks_count (hand : List Card) (r : Rank) (h : r ∈ bookRanks hand) :
    countRank hand r = 4 := by
  have := List.of_mem_filter h
  simpa using this

theorem check_player_hand_m (p : PlayerState) (hle : (p.hand : Multiset Card) ≤ fullDeckM) :
    (((check_player_for_book p).hand : List Card) : Multiset Card)
      + bookCardsSum (bookRanks p.hand) = (p.hand : Multiset Card) := by
  have := foldl_removeBook (bookRanks p.hand) p.hand (bookRanks_nodup p.hand)
    (fun r hr => filter_rank_eq_bookCards p.hand r hle (bookRanks_count p.hand r hr))
  simpa [check_player_for_book] using this

theorem check_player_books (p : PlayerState) :
    (check_player_for_book p).books = p.books ++ bookRanks p.hand := rfl

theorem check_player_playing (p : PlayerState) :
    (check_player_for_book p).playing = p.playing := rfl

theorem playerBooksM_check (p : PlayerState) :
    playerBooksM (check_player_for_book p)
      = playerBooksM p + bookCardsSum (bookRanks p.hand) := by
  simp [playerBooksM, check_player_for_book, bookCardsSum]

/-! ## Frame lemmas for the notification methods -/

theorem hear_ask_hand (p : PlayerState) (a : Nat) (f : Rank) (r : Nat) :
    (hear_ask p a f r).hand = p.hand := rfl

theorem hear_ask_books (p : PlayerState) (a : Nat) (f : Rank) (r : Nat) :
    (hear_ask p a f r).books = p.books := rfl

theorem hear_ask_playing (p : PlayerState) (a : Nat) (f : Rank) (r : Nat) :
    (hear_ask p a f r).playing = p.playing := rfl

theorem hear_confirm_hand (p ap : PlayerState) (fc rp rs : PyV) :
    (hear_confirm p ap fc rp rs).hand = p.hand := by
  unfold hear_confirm; split <;> rfl

theorem hear_confirm_books (p ap : PlayerState) (fc rp rs : PyV) :
    (hear_confirm p ap fc rp rs).books = p.books := by
  unfold hear_confirm; split <;> rfl

theorem hear_confirm_playing (p ap : PlayerState) (fc rp rs : PyV) :
    (hear_confirm p ap fc rp rs).playing = p.playing := by
  unfold hear_confirm; split <;> rfl

/-! ## Conservation of the card multiset through each phase of a turn -/

theorem filter_split_m (l : List Card) (f : Rank) :
    ((l.filter fun c => c.1 == f : List Card) : Multiset Card)
      + ((l.filter fun c => !(c.1 == f) : List Card) : Multiset Card) = (l : Multiset Card) := by
  rw [Multiset.coe_add]
  exact Multiset.coe_eq_coe.mpr (List.filter_append_perm _ l)

theorem sums_set (l : List PlayerState) (i : Nat) (p2 : PlayerState) (h : i < l.length) :
    handsM (l.set i p2) + booksM (l.set i p2)
      + ((l.getD i default).hand : Multiset Card) + playerBooksM (l.getD i default)
    = handsM l + booksM l + (p2.hand : Multiset Card) + playerBooksM p2 := by
  have h1 := sumM_set (fun q => (q.hand : Multiset Card)) l i p2 h
  have h2 := sumM_set playerBooksM l i p2 h
  simp only [handsM, booksM]
  calc sumM (fun q => (q.hand : Multiset Card)) (l.set i p2) + sumM playerBooksM (l.set i p2)
        + ((l.getD i default).hand : Multiset Card) + playerBooksM (l.getD i default)
      = (sumM (fun q => (q.hand : Multiset Card)) (l.set i p2)
          + ((l.getD i default).hand : Multiset Card))
        + (sumM playerBooksM (l.set i p2) + playerBooksM (l.getD i default)) := by abel
    _ = (sumM (fun q => (q.hand : Multiset Card)) l + (p2.hand : Multiset Card))
        + (sumM playerBooksM l + playerBooksM p2) := by rw [h1, h2]
    _ = sumM (fun q => (q.hand : Multiset Card)) l + sumM playerBooksM l
        + (p2.hand : Multiset Card) + playerBooksM p2 := by abel

theorem totalM_set_same_cards (g : GameState) (i : Nat) (p2 : PlayerState)
    (h2 : p2.hand = (g.players.getD i default).hand)
    (h3 : p2.books = (g.players.getD i default).books) :
    totalM { g with players := g.players.set i p2 } = totalM g := by
  by_cases h : i < g.players.length
  · have hs := sums_set g.players i p2 h
    rw [show (p2.hand : Multiset Card) = ((g.players.getD i default).hand : Multiset Card) by
          rw [h2],
        show playerBooksM p2 = playerBooksM (g.players.getD i default) by
          unfold playerBooksM; rw [h3]] at hs
    have hcancel := add_right_cancel (add_right_cancel hs)
    simp only [totalM]
    rw [hcancel]
  · simp [list_set_oob _ _ _ (le_of_not_lt h)]

theorem totalM_draw_card (g : GameState) (i n : Nat) (h : i < g.players.length) :
    totalM (draw_card g i n).1 = totalM g := by
  unfold draw_card
  by_cases hd : n ≤ g.deck.length
  · simp only [if_pos hd]
    have hdeck : (g.deck : Multiset Card)
        = ((g.deck.take n : List Card) : Multiset Card)
          + ((g.deck.drop n : List Card) : Multiset Card) := by
      conv_lhs => rw [← List.take_append_drop n g.deck]
      rw [Multiset.coe_add]
    have hs := sums_set g.players i
      { g.players.getD i default with hand := (g.players.getD i default).hand ++ g.deck.take n } h
    have hs2 := add_right_cancel hs
    rw [show ((({ g.players.getD i default with
            hand := (g.players.getD i default).hand ++ g.deck.take n } : PlayerState).hand
          : List Card) : Multiset Card)
        = ((g.players.getD i default).hand : Multiset Card)
          + ((g.deck.take n : List Card) : Multiset Card) from by
      show (((g.players.getD i default).hand ++ g.deck.take n : List Card) : Multiset Card) = _
      rw [Multiset.coe_add]] at hs2
    have hs3 : handsM (g.players.set i { g.players.getD i default with
          hand := (g.players.getD i default).hand ++ g.deck.take n })
        + booksM (g.players.set i { g.players.getD i default with
          hand := (g.players.getD i default).hand ++ g.deck.take n })
        = handsM g.players + booksM g.players
          + ((g.deck.take n : List Card) : Multiset Card) := by
      apply add_right_cancel (b := ((g.players.getD i default).hand : Multiset Card))
      calc handsM (g.players.set i { g.players.getD i default with
              hand := (g.players.getD i default).hand ++ g.deck.take n })
            + booksM (g.players.set i { g.players.getD i default with
              hand := (g.players.getD i default).hand ++ g.deck.take n })
            + ((g.players.getD i default).hand : Multiset Card)
          = handsM g.players + booksM g.players
            + (((g.players.getD i default).hand : Multiset Card)
              + ((g.deck.take n : List Card) : Multiset Card)) := hs2
        _ = handsM g.players + booksM g.players
            + ((g.deck.take n : List Card) : Multiset Card)
            + ((g.players.getD i default).hand : Multiset Card) := by abel
    show handsM (g.players.set i _) + booksM (g.players.set i _)
        + ((g.deck.drop n : List Card) : Multiset Card) = totalM g
    rw [hs3]
    unfold totalM
    rw [hdeck]
    abel
  · simp [if_neg hd]

theorem totalM_elimIfEmpty (g : GameState) (i : Nat) :
    totalM (elimIfEmpty g i) = totalM g := by
  unfold elimIfEmpty
  dsimp only
  split
  · exact totalM_set_same_cards g i _ rfl rfl
  · rfl

theorem totalM_doWin (g : GameState) (aIdx t : Nat) (won : List Card)
    (h : aIdx < g.players.length) :
    totalM (doWin g aIdx t won) = totalM g + (won : Multiset Card) := by
  have hg1 : totalM { g with players := (g.players.set aIdx
      { g.players.getD aIdx default with hand := (g.players.getD aIdx default).hand ++ won }) }
      = totalM g + (won : Multiset Card) := by
    have hs := sums_set g.players aIdx
      { g.players.getD aIdx default with hand := (g.players.getD aIdx default).hand ++ won } h
    have hs2 := add_right_cancel hs
    rw [show ((({ g.players.getD aIdx default with
            hand := (g.players.getD aIdx default).hand ++ won } : PlayerState).hand
          : List Card) : Multiset Card)
        = ((g.players.getD aIdx default).hand : Multiset Card) + (won : Multiset Card) from by
      show (((g.players.getD aIdx default).hand ++ won : List Card) : Multiset Card) = _
      rw [Multiset.coe_add]] at hs2
    have hs3 : handsM (g.players.set aIdx { g.players.getD aIdx default with
          hand := (g.players.getD aIdx default).hand ++ won })
        + booksM (g.players.set aIdx { g.players.getD aIdx default with
          hand := (g.players.getD aIdx default).hand ++ won })
        = handsM g.players + booksM g.players + (won : Multiset Card) := by
      apply add_right_cancel (b := ((g.players.getD aIdx default).hand : Multiset Card))
      calc handsM (g.players.set aIdx { g.players.getD aIdx default with
              hand := (g.players.getD aIdx default).hand ++ won })
            + booksM (g.players.set aIdx { g.players.getD aIdx default with
              hand := (g.players.getD aIdx default).hand ++ won })
            + ((g.players.getD aIdx default).hand : Multiset Card)
          = handsM g.players + booksM g.players
            + (((g.players.getD aIdx default).hand : Multiset Card) + (won : Multiset Card)) :=
          hs2
        _ = handsM g.players + booksM g.players + (won : Multiset Card)
            + ((g.players.getD aIdx default).hand : Multiset Card) := by abel
    show handsM (g.players.set aIdx _) + booksM (g.players.set aIdx _)
        + (g.deck : Multiset Card) = totalM g + (won : Multiset Card)
    rw [hs3]
    unfold totalM
    abel
  unfold doWin
  dsimp only
  split
  · rw [totalM_elimIfEmpty, totalM_elimIfEmpty, hg1]
  · exact hg1

theorem totalM_doConfirm (g : GameState) (f : Rank) (t : Nat) :
    totalM (doConfirm g f t).2 + ((doConfirm g f t).1 : Multiset Card) = totalM g := by
  by_cases ht : t < g.players.length
  · have hs := sums_set g.players t
      { g.players.getD t default with
        hand := (g.players.getD t default).hand.filter fun c => !(c.1 == f) } ht
    have hs2 := add_right_cancel hs
    show totalM { g with players := g.players.set t { g.players.getD t default with
        hand := (g.players.getD t default).hand.filter fun c => !(c.1 == f) } }
      + (((g.players.getD t default).hand.filter fun c => c.1 == f : List Card) : Multiset Card)
      = totalM g
    unfold totalM
    dsimp only
    apply add_right_cancel (b := ((g.players.getD t default).hand : Multiset Card))
    calc handsM (g.players.set t { g.players.getD t default with
            hand := (g.players.getD t default).hand.filter fun c => !(c.1 == f) })
          + booksM (g.players.set t { g.players.getD t default with
            hand := (g.players.getD t default).hand.filter fun c => !(c.1 == f) })
          + (g.deck : Multiset Card)
          + (((g.players.getD t default).hand.filter fun c => c.1 == f : List Card) : Multiset Card)
          + ((g.players.getD t default).hand : Multiset Card)
        = (handsM (g.players.set t { g.players.getD t default with
            hand := (g.players.getD t default).hand.filter fun c => !(c.1 == f) })
          + booksM (g.players.set t { g.players.getD t default with
            hand := (g.players.getD t default).hand.filter fun c => !(c.1 == f) })
          + ((g.players.getD t default).hand : Multiset Card))
          + (g.deck : Multiset Card)
          + (((g.players.getD t default).hand.filter fun c => c.1 == f : List Card) : Multiset Card)
          := by abel
      _ = (handsM g.players + booksM g.players
          + ((((g.players.getD t default).hand.filter fun c => !(c.1 == f) : List Card))
            : Multiset Card))
          + (g.deck : Multiset Card)
          + (((g.players.getD t default).hand.filter fun c => c.1 == f : List Card) : Multiset Card)
          := by rw [hs2]
      _ = handsM g.players + booksM g.players + (g.deck : Multiset Card)
          + ((((g.players.getD t default).hand.filter fun c => c.1 == f : List Card))
            : Multiset Card)
          + ((((g.players.getD t default).hand.filter fun c => !(c.1 == f) : List Card))
            : Multiset Card) := by abel
      _ = handsM g.players + booksM g.players + (g.deck : Multiset Card)
          + ((g.players.getD t default).hand : Multiset Card) := by
          rw [add_assoc (handsM g.players + booksM g.players + (g.deck : Multiset Card)),
            filter_split_m]
  · have h1 : (doConfirm g f t).1 = [] := by
      show (g.players.getD t default).hand.filter (fun c => c.1 == f) = []
      rw [List.getD_eq_default _ _ (le_of_not_lt ht)]
      rfl
    have h2 : (doConfirm g f t).2 = g := by
      show { g with players := g.players.set t _ } = g
      rw [list_set_oob _ _ _ (le_of_not_lt ht)]
    rw [h1, h2]
    simp

theorem totalM_doNotify (g : GameState) (valid : List Nat) (aIdx : Nat) (f : Rank) (t : Nat)
    (won : List Card) : totalM (doNotify g valid aIdx f t won) = totalM g := by
  unfold totalM doNotify
  dsimp only
  congr 1
  congr 1
  · unfold handsM
    exact sumM_mapWithIndex _ _ 0 g.players (fun i p => by
      split
      · rw [hear_confirm_hand, hear_ask_hand]
      · rfl)
  · unfold booksM
    exact sumM_mapWithIndex _ _ 0 g.players (fun i p => by
      split
      · unfold playerBooksM; rw [hear_confirm_books, hear_ask_books]
      · rfl)

theorem totalM_doBook (g : GameState) (aIdx : Nat) (h : aIdx < g.players.length)
    (hfd : totalM g = fullDeckM) : totalM (doBook g aIdx) = fullDeckM := by
  have hle : ((g.players.getD aIdx default).hand : Multiset Card) ≤ fullDeckM := by
    rw [← hfd]
    calc ((g.players.getD aIdx default).hand : Multiset Card)
        ≤ handsM g.players := sumM_getD_le _ _ _ h
      _ ≤ handsM g.players + booksM g.players := Multiset.le_add_right _ _
      _ ≤ totalM g := by unfold totalM; exact Multiset.le_add_right _ _
  have hm := check_player_hand_m (g.players.getD aIdx default) hle
  have hs := sums_set g.players aIdx (check_player_for_book (g.players.getD aIdx default)) h
  rw [playerBooksM_check] at hs
  have hs2 : handsM (g.players.set aIdx (check_player_for_book (g.players.getD aIdx default)))
      + booksM (g.players.set aIdx (check_player_for_book (g.players.getD aIdx default)))
      + ((g.players.getD aIdx default).hand : Multiset Card)
      + playerBooksM (g.players.getD aIdx default)
      = handsM g.players + booksM g.players
      + ((g.players.getD aIdx default).hand : Multiset Card)
      + playerBooksM (g.players.getD aIdx default) := by
    rw [hs]
    calc handsM g.players + booksM g.players
          + (((check_player_for_book (g.players.getD aIdx default)).hand : List Card)
            : Multiset Card)
          + (playerBooksM (g.players.getD aIdx default)
            + bookCardsSum (bookRanks (g.players.getD aIdx default).hand))
        = handsM g.players + booksM g.players
          + ((((check_player_for_book (g.players.getD aIdx default)).hand : List Card)
            : Multiset Card)
            + bookCardsSum (bookRanks (g.players.getD aIdx default).hand))
          + playerBooksM (g.players.getD aIdx default) := by abel
      _ = handsM g.players + booksM g.players
          + ((g.players.getD aIdx default).hand : Multiset Card)
          + playerBooksM (g.players.getD aIdx default) := by rw [hm]
  have hs3 := add_right_cancel (add_right_cancel hs2)
  unfold doBook totalM
  dsimp only
  rw [hs3, ← hfd]
  unfold totalM
  rfl

/-! ## Frame lemmas: player count and deck of each phase -/

theorem players_length_draw_card (g : GameState) (i n : Nat) :
    (draw_card g i n).1.players.length = g.players.length := by
  unfold draw_card; split <;> simp

theorem players_length_doConfirm (g : GameState) (f : Rank) (t : Nat) :
    (doConfirm g f t).2.players.length = g.players.length := by
  show (g.players.set t _).length = _
  simp

theorem deck_doConfirm (g : GameState) (f : Rank) (t : Nat) :
    (doConfirm g f t).2.deck = g.deck := rfl

theorem players_length_doNotify (g : GameState) (valid : List Nat) (aIdx : Nat) (f : Rank)
    (t : Nat) (won : List Card) :
    (doNotify g valid aIdx f t won).players.length = g.players.length := by
  show (mapWithIndex _ 0 g.players).length = _
  exact length_mapWithIndex _ 0 g.players

theorem deck_doNotify (g : GameState) (valid : List Nat) (aIdx : Nat) (f : Rank) (t : Nat)
    (won : List Card) : (doNotify g valid aIdx f t won).deck = g.deck := rfl

theorem players_length_elimIfEmpty (g : GameState) (i : Nat) :
    (elimIfEmpty g i).players.length = g.players.length := by
  unfold elimIfEmpty; dsimp only; split <;> simp

theorem deck_elimIfEmpty (g : GameState) (i : Nat) : (elimIfEmpty g i).deck = g.deck := by
  unfold elimIfEmpty; dsimp only; split <;> rfl

theorem players_length_doWin (g : GameState) (aIdx t : Nat) (won : List Card) :
    (doWin g aIdx t won).players.length = g.players.length := by
  unfold doWin; dsimp only; split
  · rw [players_length_elimIfEmpty, players_length_elimIfEmpty]; simp
  · simp

theorem deck_doWin (g : GameState) (aIdx t : Nat) (won : List Card) :
    (doWin g aIdx t won).deck = g.deck := by
  unfold doWin; dsimp only; split
  · rw [deck_elimIfEmpty, deck_elimIfEmpty]
  · rfl

theorem players_length_doBook (g : GameState) (aIdx : Nat) :
    (doBook g aIdx).players.length = g.players.length := by
  show (g.players.set aIdx _).length = _
  simp

theorem deck_doBook (g : GameState) (aIdx : Nat) : (doBook g aIdx).deck = g.deck := rfl

theorem totalM_doRotate (g : GameState) (valid : List Nat) (aIdx : Nat) :
    totalM (doRotate g valid aIdx) = totalM g := rfl

theorem players_doRotate (g : GameState) (valid : List Nat) (aIdx : Nat) :
    (doRotate g valid aIdx).players = g.players := rfl

/-! ## Conservation through a full request and a full turn -/

theorem totalM_runRequest (g : GameState) (valid : List Nat) (aIdx : Nat) (f : Rank) (t : Nat)
    (h : aIdx < g.players.length) (hfd : totalM g = fullDeckM) :
    totalM (runRequest g valid aIdx f t) = fullDeckM := by
  unfold runRequest
  dsimp only
  have hC := totalM_doConfirm g f t
  have hN := totalM_doNotify (doConfirm g f t).2 valid aIdx f t (doConfirm g f t).1
  have hlen4 : aIdx
      < (doNotify (doConfirm g f t).2 valid aIdx f t (doConfirm g f t).1).players.length := by
    rw [players_length_doNotify, players_length_doConfirm]; exact h
  have hG5 : totalM (if !(doConfirm g f t).1.isEmpty then
        doWin (doNotify (doConfirm g f t).2 valid aIdx f t (doConfirm g f t).1) aIdx t
          (doConfirm g f t).1
      else (draw_card (doNotify (doConfirm g f t).2 valid aIdx f t (doConfirm g f t).1) aIdx 1).1)
      = fullDeckM := by
    by_cases hw : (doConfirm g f t).1.isEmpty
    · rw [if_neg (by simp [hw])]
      rw [totalM_draw_card _ _ _ hlen4, hN]
      have : ((doConfirm g f t).1 : Multiset Card) = 0 := by
        rw [List.isEmpty_iff.mp hw]; rfl
      rw [← hfd, ← hC, this, add_zero]
    · rw [if_pos (by simp [hw])]
      rw [totalM_doWin _ _ _ _ hlen4, hN, hC, hfd]
  have hlen5 : aIdx < (if !(doConfirm g f t).1.isEmpty then
        doWin (doNotify (doConfirm g f t).2 valid aIdx f t (doConfirm g f t).1) aIdx t
          (doConfirm g f t).1
      else (draw_card (doNotify (doConfirm g f t).2 valid aIdx f t
        (doConfirm g f t).1) aIdx 1).1).players.length := by
    split
    · rw [players_length_doWin]; exact hlen4
    · rw [players_length_draw_card]; exact hlen4
  rw [totalM_doRotate, totalM_doBook _ _ hlen5 hG5]

theorem players_length_runRequest (g : GameState) (valid : List Nat) (aIdx : Nat) (f : Rank)
    (t : Nat) : (runRequest g valid aIdx f t).players.length = g.players.length := by
  unfold runRequest
  dsimp only
  show ((doBook _ aIdx).players).length = _
  rw [players_length_doBook]
  split
  · rw [players_length_doWin, players_length_doNotify, players_length_doConfirm]
  · rw [players_length_draw_card, players_length_doNotify, players_length_doConfirm]

theorem active_runRequest (g : GameState) (valid : List Nat) (aIdx : Nat) (f : Rank) (t : Nat) :
    (runRequest g valid aIdx f t).active_player_idx
      = valid.getD ((indexOfN aIdx valid + 1) % valid.length) 0 := rfl

theorem phase1_players_length (g : GameState) :
    (phase1 g).1.players.length = g.players.length := by
  unfold phase1
  dsimp only
  split
  · simp [players_length_draw_card]
  · rfl

theorem totalM_phase1 (g : GameState) (h : g.active_player_idx < g.players.length) :
    totalM (phase1 g).1 = totalM g := by
  unfold phase1
  dsimp only
  split
  · exact (totalM_set_same_cards (draw_card g g.active_player_idx 1).1 g.active_player_idx
      { (draw_card g g.active_player_idx 1).1.players.getD g.active_player_idx default with
        playing := (draw_card g g.active_player_idx 1).2 } rfl rfl).trans
      (totalM_draw_card g g.active_player_idx 1 h)
  · rfl

theorem phase1_getD_playing (g : GameState) (h : g.active_player_idx < g.players.length) :
    ((phase1 g).1.players.getD g.active_player_idx default).playing
      = (phase1 g).2.playing := by
  unfold phase1
  dsimp only
  split
  · rw [getD_set_self]
    rw [players_length_draw_card]; exact h
  · rfl

theorem phase1_not_empty (g : GameState)
    (he : ¬ (g.players.getD g.active_player_idx default).hand.isEmpty = true) :
    phase1 g = (g, g.players.getD g.active_player_idx default) := by
  unfold phase1
  dsimp only
  rw [if_neg he]

theorem mem_validIdxs (g : GameState) (i : Nat) :
    i ∈ validIdxs g ↔ i < g.players.length ∧ (g.players.getD i default).playing = true := by
  unfold validIdxs
  simp [List.mem_filter, List.mem_range]

theorem validIdxs_ne_nil (g : GameState) (i : Nat) (h1 : i < g.players.length)
    (h2 : (g.players.getD i default).playing = true) : validIdxs g ≠ [] := by
  intro he
  have hm := (mem_validIdxs g i).mpr ⟨h1, h2⟩
  rw [he] at hm
  cases hm

theorem getD_mod_mem {α : Type} (l : List α) (k : Nat) (d : α) (h : l ≠ []) :
    l.getD (k % l.length) d ∈ l := by
  have hl : 0 < l.length := List.length_pos.mpr h
  exact getD_mem l _ d (Nat.mod_lt _ hl)

theorem players_length_do_turn (g : GameState) (ask : AskFn) :
    (do_turn g ask).players.length = g.players.length := by
  unfold do_turn
  dsimp only
  split
  · rw [players_length_runRequest]
    show ((phase1 g).1.players.set _ _).length = _
    rw [List.length_set, phase1_players_length]
  · show (phase1 g).1.players.length = _
    exact phase1_players_length g

theorem totalM_do_turn (g : GameState) (ask : AskFn) (hask : AskOnlySeen ask)
    (h : g.active_player_idx < g.players.length) (hfd : totalM g = fullDeckM) :
    totalM (do_turn g ask) = fullDeckM := by
  have h1 : g.active_player_idx < (phase1 g).1.players.length := by
    rw [phase1_players_length]; exact h
  have hp1 : totalM (phase1 g).1 = fullDeckM := by
    rw [totalM_phase1 g h]; exact hfd
  unfold do_turn
  dsimp only
  split
  · apply totalM_runRequest
    · show g.active_player_idx < ((phase1 g).1.players.set _ _).length
      rw [List.length_set]; exact h1
    · rw [totalM_set_same_cards _ _ _ (hask _ _ _).1 (hask _ _ _).2.1]
      exact hp1
  · exact hp1

theorem active_lt_do_turn (g : GameState) (ask : AskFn)
    (h : g.active_player_idx < g.players.length) :
    (do_turn g ask).active_player_idx < (do_turn g ask).players.length := by
  rw [players_length_do_turn]
  unfold do_turn
  dsimp only
  split
  case isTrue hp =>
    rw [active_runRequest]
    have hmem := getD_mod_mem (validIdxs (phase1 g).1)
      (indexOfN g.active_player_idx (validIdxs (phase1 g).1) + 1) 0
      (validIdxs_ne_nil (phase1 g).1 g.active_player_idx
        (by rw [phase1_players_length]; exact h)
        (by rw [phase1_getD_playing g h]; exact hp))
    have hlt := ((mem_validIdxs (phase1 g).1 _).mp hmem).1
    rw [phase1_players_length] at hlt
    exact hlt
  case isFalse hp =>
    exact Nat.mod_lt _ (Nat.pos_of_ne_zero (by omega))

/-! ## Setup and the reachable-state invariant -/

theorem handsM_cons (a : PlayerState) (t : List PlayerState) :
    handsM (a :: t) = (a.hand : Multiset Card) + handsM t := sumM_cons _ a t

theorem booksM_cons (a : PlayerState) (t : List PlayerState) :
    booksM (a :: t) = playerBooksM a + booksM t := sumM_cons _ a t

theorem dealHands_hands_m (cc : Nat) (ps : List PlayerState) (d : List Card) :
    handsM (dealHands cc ps d).1 + (((dealHands cc ps d).2 : List Card) : Multiset Card)
      = (d : Multiset Card) := by
  induction ps generalizing d with
  | nil => simp [dealHands, handsM, sumM]
  | cons p ps ih =>
    show handsM ({ p with playing := true, hand := d.take cc } :: (dealHands cc ps (d.drop cc)).1)
        + (((dealHands cc ps (d.drop cc)).2 : List Card) : Multiset Card) = (d : Multiset Card)
    rw [handsM_cons]
    have hr := ih (d.drop cc)
    calc (({ p with playing := true, hand := d.take cc } : PlayerState).hand : Multiset Card)
          + handsM (dealHands cc ps (d.drop cc)).1
          + (((dealHands cc ps (d.drop cc)).2 : List Card) : Multiset Card)
        = ((d.take cc : List Card) : Multiset Card)
          + (handsM (dealHands cc ps (d.drop cc)).1
            + (((dealHands cc ps (d.drop cc)).2 : List Card) : Multiset Card)) := by abel
      _ = ((d.take cc : List Card) : Multiset Card)
          + ((d.drop cc : List Card) : Multiset Card) := by rw [hr]
      _ = (d : Multiset Card) := by rw [Multiset.coe_add, List.take_append_drop]

theorem dealHands_booksM (cc : Nat) (ps : List PlayerState) (d : List Card) :
    booksM (dealHands cc ps d).1 = booksM ps := by
  induction ps generalizing d with
  | nil => rfl
  | cons p ps ih =>
    show booksM ({ p with playing := true, hand := d.take cc }
        :: (dealHands cc ps (d.drop cc)).1) = booksM (p :: ps)
    rw [booksM_cons, booksM_cons, ih (d.drop cc)]
    rfl

theorem dealHands_length (cc : Nat) (ps : List PlayerState) (d : List Card) :
    (dealHands cc ps d).1.length = ps.length := by
  induction ps generalizing d with
  | nil => rfl
  | cons p ps ih =>
    show (_ :: (dealHands cc ps (d.drop cc)).1).length = _
    simp [ih (d.drop cc)]

theorem booksM_eq_zero (ps : List PlayerState) (hb : ∀ p ∈ ps, p.books = []) :
    booksM ps = 0 := by
  induction ps with
  | nil => rfl
  | cons p t ih =>
    rw [booksM_cons, ih fun q hq => hb q (List.mem_cons_of_mem p hq)]
    have hp : p.books = [] := hb p (List.mem_cons_self p t)
    simp [playerBooksM, hp]

theorem inv_setup (roster : List PlayerState) (hb : ∀ p ∈ roster, p.books = [])
    (hlen : roster ≠ []) (shuffled : List Card) (hperm : shuffled.Perm BASE_DECK) :
    INV (setup_game (initGame roster) shuffled) := by
  constructor
  · show handsM (dealHands _ roster shuffled).1 + booksM (dealHands _ roster shuffled).1
        + (((dealHands _ roster shuffled).2 : List Card) : Multiset Card) = fullDeckM
    rw [dealHands_booksM, booksM_eq_zero roster hb]
    have h1 := dealHands_hands_m (if 4 < roster.length then 5 else 7) roster shuffled
    calc handsM (dealHands (if 4 < roster.length then 5 else 7) roster shuffled).1 + 0
          + (((dealHands (if 4 < roster.length then 5 else 7) roster shuffled).2
            : List Card) : Multiset Card)
        = handsM (dealHands (if 4 < roster.length then 5 else 7) roster shuffled).1
          + (((dealHands (if 4 < roster.length then 5 else 7) roster shuffled).2
            : List Card) : Multiset Card) := by abel
      _ = (shuffled : Multiset Card) := h1
      _ = fullDeckM := Multiset.coe_eq_coe.mpr hperm
  · show 0 < (dealHands _ roster shuffled).1.length
    rw [dealHands_length]
    exact List.length_pos.mpr hlen

theorem inv_do_turn (g : GameState) (ask : AskFn) (hask : AskOnlySeen ask) (hinv : INV g) :
    INV (do_turn g ask) :=
  ⟨totalM_do_turn g ask hask hinv.2 hinv.1, active_lt_do_turn g ask hinv.2⟩

theorem inv_reachable (roster : List PlayerState) (hb : ∀ p ∈ roster, p.books = [])
    (hlen : roster ≠ []) (g : GameState) (h : Reachable roster g) : INV g := by
  induction h with
  | setup shuffled hperm => exact inv_setup roster hb hlen shuffled hperm
  | step g2 ask hask hr ih => exact inv_do_turn g2 ask hask ih

/-! ## Counting cards -/

theorem card_handsM (l : List PlayerState) :
    Multiset.card (handsM l) = (l.map fun p => p.hand.length).sum := by
  induction l with
  | nil => rfl
  | cons a t ih => rw [handsM_cons]; simp [ih]

theorem card_bookCardsSum (rs : List Rank) :
    Multiset.card ((rs.map bookCards).sum) = 4 * rs.length := by
  induction rs with
  | nil => rfl
  | cons r t ih =>
    rw [List.map_cons, List.sum_cons, Multiset.card_add, card_bookCards, ih]
    simp
    omega

theorem card_booksM (l : List PlayerState) :
    Multiset.card (booksM l) = 4 * (l.map fun p => p.books.length).sum := by
  induction l with
  | nil => rfl
  | cons a t ih =>
    rw [booksM_cons, Multiset.card_add, ih]
    have ha : Multiset.card (playerBooksM a) = 4 * a.books.length := card_bookCardsSum a.books
    rw [ha]
    simp
    omega

theorem card_fullDeckM : Multiset.card fullDeckM = 52 := by decide

/-- C4: for every game whose players all start with empty book lists, after
`setup_game` and after every subsequent call of `do_turn` (i.e. in every
reachable state), the total number of cards in all players' hands plus 4
times the total number of books across all players plus the number of cards
in the deck equals 52. -/
theorem C4_card_conservation (roster : List PlayerState) (g : GameState)
    (hb : ∀ p ∈ roster, p.books = []) (hlen : 2 ≤ roster.length)
    (h : Reachable roster g) :
    cardsInHands g + 4 * totalBooksCount g + g.deck.length = 52 := by
  have hne : roster ≠ [] := by
    intro e
    rw [e] at hlen
    simp at hlen
  have hinv := inv_reachable roster hb hne g h
  have hcard := congrArg Multiset.card hinv.1
  rw [card_fullDeckM] at hcard
  unfold totalM at hcard
  rw [Multiset.card_add, Multiset.card_add, card_handsM, card_booksM] at hcard
  have hdl : Multiset.card ((g.deck : List Card) : Multiset Card) = g.deck.length := by simp
  rw [hdl] at hcard
  unfold cardsInHands totalBooksCount
  omega

/-- Witness for C4: the freshly set-up two-player game (identity shuffle)
satisfies the conservation equation. -/
theorem C4_card_conservation_witness :
    cardsInHands (setup_game (initGame [default, default]) BASE_DECK)
      + 4 * totalBooksCount (setup_game (initGame [default, default]) BASE_DECK)
      + (setup_game (initGame [default, default]) BASE_DECK).deck.length = 52 :=
  C4_card_conservation [default, default] _ (by decide)
    (by decide) (Reachable.setup BASE_DECK (List.Perm.refl BASE_DECK))

/-! ## Per-slot characterizations of the phases -/

theorem getD_set_eq_ite {α : Type} (l : List α) (i j : Nat) (p : α) (d : α) :
    (l.set i p).getD j d = if i = j ∧ i < l.length then p else l.getD j d := by
  by_cases h1 : i = j
  · subst h1
    by_cases h2 : i < l.length
    · rw [getD_set_self _ _ _ _ h2, if_pos ⟨rfl, h2⟩]
    · rw [list_set_oob _ _ _ (le_of_not_lt h2), if_neg (by tauto)]
  · rw [getD_set_ne _ _ _ _ _ h1, if_neg (by tauto)]

theorem getD_doConfirm (g : GameState) (f : Rank) (t j : Nat) :
    (doConfirm g f t).2.players.getD j default
    = if t = j ∧ t < g.players.length then
        { g.players.getD t default with
          hand := (g.players.getD t default).hand.filter fun c => !(c.1 == f) }
      else g.players.getD j default := by
  show (g.players.set t _).getD j default = _
  rw [getD_set_eq_ite]
  rfl

theorem getD_doNotify (g : GameState) (valid : List Nat) (aIdx : Nat) (f : Rank) (t : Nat)
    (won : List Card) (j : Nat) (hj : j < g.players.length) :
    (doNotify g valid aIdx f t won).players.getD j default
    = if j ∈ valid ∧ j ≠ aIdx ∧ j ≠ t then
        hear_confirm (hear_ask (g.players.getD j default) aIdx f t)
          (g.players.getD aIdx default) (PyV.bool (!won.isEmpty)) (PyV.rank f) (PyV.player t)
      else g.players.getD j default := by
  show (mapWithIndex _ 0 g.players).getD j default = _
  rw [getD_mapWithIndex _ 0 _ _ _ hj]
  simp only [Nat.zero_add]

theorem getD_elimIfEmpty (g : GameState) (i j : Nat) :
    (elimIfEmpty g i).players.getD j default
    = if i = j ∧ i < g.players.length ∧ (g.players.getD i default).hand.isEmpty = true then
        { g.players.getD i default with playing := false }
      else g.players.getD j default := by
  unfold elimIfEmpty
  dsimp only
  split
  case isTrue he =>
    show (g.players.set i _).getD j default = _
    rw [getD_set_eq_ite]
    by_cases h1 : i = j ∧ i < g.players.length
    · rw [if_pos h1, if_pos ⟨h1.1, h1.2, he⟩]
    · rw [if_neg h1, if_neg (by tauto)]
  case isFalse he =>
    rw [if_neg (by tauto)]

theorem playing_set_hand (l : List PlayerState) (i j : Nat) (newHand : List Card) :
    ((l.set i { l.getD i default with hand := newHand }).getD j default).playing
      = (l.getD j default).playing := by
  rw [getD_set_eq_ite]
  split
  case isTrue hc =>
    obtain ⟨rfl, -⟩ := hc
    rfl
  case isFalse hc => rfl

theorem playing_doConfirm (g : GameState) (f : Rank) (t j : Nat) :
    (((doConfirm g f t).2.players.getD j default)).playing
      = ((g.players.getD j default)).playing := by
  rw [getD_doConfirm]
  split
  case isTrue hc =>
    obtain ⟨rfl, -⟩ := hc
    rfl
  case isFalse hc => rfl

theorem playing_doNotify (g : GameState) (valid : List Nat) (aIdx : Nat) (f : Rank) (t : Nat)
    (won : List Card) (j : Nat) :
    (((doNotify g valid aIdx f t won).players.getD j default)).playing
      = ((g.players.getD j default)).playing := by
  by_cases hj : j < g.players.length
  · rw [getD_doNotify _ _ _ _ _ _ _ hj]
    split
    · rw [hear_confirm_playing, hear_ask_playing]
    · rfl
  · have h1 : (doNotify g valid aIdx f t won).players.getD j default = default := by
      apply List.getD_eq_default
      rw [players_length_doNotify]
      exact le_of_not_lt hj
    have h2 : g.players.getD j default = default :=
      List.getD_eq_default _ _ (le_of_not_lt hj)
    rw [h1, h2]

theorem playing_doBook (g : GameState) (aIdx j : Nat) :
    (((doBook g aIdx).players.getD j default)).playing
      = ((g.players.getD j default)).playing := by
  show ((g.players.set aIdx _).getD j default).playing = _
  rw [getD_set_eq_ite]
  split
  case isTrue hc =>
    obtain ⟨rfl, -⟩ := hc
    exact check_player_playing _
  case isFalse hc => rfl

theorem playing_draw_card (g : GameState) (i n j : Nat) :
    ((((draw_card g i n).1.players.getD j default)).playing)
      = ((g.players.getD j default)).playing := by
  unfold draw_card
  split
  · exact playing_set_hand g.players i j _
  · rfl

theorem playing_mono_elimIfEmpty (g : GameState) (i j : Nat)
    (h : (((elimIfEmpty g i).players.getD j default)).playing = true) :
    ((g.players.getD j default)).playing = true := by
  rw [getD_elimIfEmpty] at h
  split at h
  case isTrue hc => cases h
  case isFalse hc => exact h

theorem playing_mono_doWin (g : GameState) (aIdx t : Nat) (won : List Card) (j : Nat)
    (h : (((doWin g aIdx t won).players.getD j default)).playing = true) :
    ((g.players.getD j default)).playing = true := by
  unfold doWin at h
  dsimp only at h
  split at h
  · have h1 := playing_mono_elimIfEmpty _ aIdx j h
    have h2 := playing_mono_elimIfEmpty _ t j h1
    have h3 : ((g.players.set aIdx { g.players.getD aIdx default with
        hand := (g.players.getD aIdx default).hand ++ won }).getD j default).playing = true := h2
    rw [playing_set_hand] at h3
    exact h3
  · have h3 : ((g.players.set aIdx { g.players.getD aIdx default with
        hand := (g.players.getD aIdx default).hand ++ won }).getD j default).playing = true := h
    rw [playing_set_hand] at h3
    exact h3

theorem playing_mono_runRequest (g : GameState) (valid : List Nat) (aIdx : Nat) (f : Rank)
    (t j : Nat)
    (h : (((runRequest g valid aIdx f t).players.getD j default)).playing = true) :
    ((g.players.getD j default)).playing = true := by
  unfold runRequest at h
  dsimp only at h
  have h1 : (((doBook (if !(doConfirm g f t).1.isEmpty then
      doWin (doNotify (doConfirm g f t).2 valid aIdx f t (doConfirm g f t).1) aIdx t
        (doConfirm g f t).1
    else (draw_card (doNotify (doConfirm g f t).2 valid aIdx f t
      (doConfirm g f t).1) aIdx 1).1) aIdx).players.getD j default)).playing = true := h
  rw [playing_doBook] at h1
  have h2 : (((doNotify (doConfirm g f t).2 valid aIdx f t
      (doConfirm g f t).1).players.getD j default)).playing = true := by
    by_cases hw : (doConfirm g f t).1.isEmpty
    · rw [if_neg (by simp [hw])] at h1
      rw [playing_draw_card] at h1
      exact h1
    · rw [if_pos (by simp [hw])] at h1
      exact playing_mono_doWin _ aIdx t _ j h1
  rw [playing_doNotify, playing_doConfirm] at h2
  exact h2

/-! ## The playing-flag invariant -/

theorem playingInv_set (l : List PlayerState) (i : Nat) (p2 : PlayerState)
    (h : PlayingInv l) (hp : p2.playing = false → p2.hand = []) :
    PlayingInv (l.set i p2) := by
  intro j hj
  rw [List.length_set] at hj
  rw [getD_set_eq_ite]
  split
  · exact hp
  · exact h j hj

theorem playingInv_getD_imp (l : List PlayerState) (h : PlayingInv l) (i : Nat) :
    (l.getD i default).playing = false → (l.getD i default).hand = [] := by
  by_cases hi : i < l.length
  · exact h i hi
  · rw [List.getD_eq_default _ _ (le_of_not_lt hi)]
    intro hf
    cases hf

theorem playingInv_phase1 (g : GameState) (h : PlayingInv g.players) :
    PlayingInv (phase1 g).1.players := by
  unfold phase1
  dsimp only
  split
  case isTrue he =>
    by_cases hd : 1 ≤ g.deck.length
    · have hdr : draw_card g g.active_player_idx 1
          = ({ g with deck := g.deck.drop 1, players := (g.players.set g.active_player_idx
              { g.players.getD g.active_player_idx default with
                hand := (g.players.getD g.active_player_idx default).hand ++ g.deck.take 1 }) },
             true) := by
        unfold draw_card
        rw [if_pos hd]
      rw [hdr]
      dsimp only
      intro j hj
      rw [List.length_set, List.length_set] at hj
      rw [getD_set_eq_ite]
      split
      next hc =>
        intro hf
        cases hf
      next hc =>
        rw [getD_set_eq_ite]
        split
        next hc2 =>
          exfalso
          apply hc
          refine ⟨hc2.1, ?_⟩
          rw [List.length_set]
          exact hc2.2
        next hc2 => exact h j hj
    · have hdr : draw_card g g.active_player_idx 1 = (g, false) := by
        unfold draw_card
        rw [if_neg hd]
      rw [hdr]
      dsimp only
      apply playingInv_set _ _ _ h
      intro _
      exact List.isEmpty_iff.mp he
  case isFalse he => exact h

theorem playingInv_doConfirm (g : GameState) (f : Rank) (t : Nat) (h : PlayingInv g.players) :
    PlayingInv (doConfirm g f t).2.players := by
  show PlayingInv (g.players.set t _)
  apply playingInv_set _ _ _ h
  intro hf
  have hh := playingInv_getD_imp g.players h t hf
  show (g.players.getD t default).hand.filter _ = []
  rw [hh]
  rfl

theorem playingInv_doNotify (g : GameState) (valid : List Nat) (aIdx : Nat) (f : Rank)
    (t : Nat) (won : List Card) (h : PlayingInv g.players) :
    PlayingInv (doNotify g valid aIdx f t won).players := by
  intro j hj
  rw [players_length_doNotify] at hj
  rw [getD_doNotify _ _ _ _ _ _ _ hj]
  split
  · rw [hear_confirm_playing, hear_ask_playing, hear_confirm_hand, hear_ask_hand]
    exact h j hj
  · exact h j hj

theorem playingInv_elimIfEmpty (g : GameState) (i : Nat) (h : PlayingInv g.players) :
    PlayingInv (elimIfEmpty g i).players := by
  intro j hj
  rw [players_length_elimIfEmpty] at hj
  rw [getD_elimIfEmpty]
  split
  case isTrue hc =>
    intro _
    exact List.isEmpty_iff.mp hc.2.2
  case isFalse hc => exact h j hj

theorem playingInv_set_hand_extend (l : List PlayerState) (i : Nat) (extra : List Card)
    (h : PlayingInv l) (hp : (l.getD i default).playing = true) :
    PlayingInv (l.set i { l.getD i default with hand := (l.getD i default).hand ++ extra }) := by
  apply playingInv_set _ _ _ h
  intro hf
  have hf2 : (l.getD i default).playing = false := hf
  rw [hp] at hf2
  cases hf2

theorem playingInv_draw (g : GameState) (i n : Nat) (h : PlayingInv g.players)
    (hp : (g.players.getD i default).playing = true) :
    PlayingInv (draw_card g i n).1.players := by
  unfold draw_card
  split
  · exact playingInv_set_hand_extend g.players i _ h hp
  · exact h

theorem playingInv_doWin (g : GameState) (aIdx t : Nat) (won : List Card)
    (h : PlayingInv g.players) (hp : (g.players.getD aIdx default).playing = true) :
    PlayingInv (doWin g aIdx t won).players := by
  unfold doWin
  dsimp only
  have h1 : PlayingInv (g.players.set aIdx { g.players.getD aIdx default with
      hand := (g.players.getD aIdx default).hand ++ won }) :=
    playingInv_set_hand_extend g.players aIdx won h hp
  split
  · exact playingInv_elimIfEmpty _ aIdx (playingInv_elimIfEmpty _ t h1)
  · exact h1

theorem playingInv_doBook (g : GameState) (aIdx : Nat) (h : PlayingInv g.players) :
    PlayingInv (doBook g aIdx).players := by
  show PlayingInv (g.players.set aIdx _)
  apply playingInv_set _ _ _ h
  intro hf
  have hpf : (g.players.getD aIdx default).playing = false := by
    rw [← check_player_playing (g.players.getD aIdx default)]
    exact hf
  have hh := playingInv_getD_imp g.players h aIdx hpf
  show (bookRanks _).foldl removeBook (g.players.getD aIdx default).hand = []
  rw [hh]
  rfl

theorem playingInv_runRequest (g : GameState) (valid : List Nat) (aIdx : Nat) (f : Rank)
    (t : Nat) (h : PlayingInv g.players)
    (hap : (g.players.getD aIdx default).playing = true) :
    PlayingInv (runRequest g valid aIdx f t).players := by
  unfold runRequest
  dsimp only
  have h3 := playingInv_doNotify (doConfirm g f t).2 valid aIdx f t (doConfirm g f t).1
    (playingInv_doConfirm g f t h)
  have hap4 : (((doNotify (doConfirm g f t).2 valid aIdx f t
      (doConfirm g f t).1).players.getD aIdx default)).playing = true := by
    rw [playing_doNotify, playing_doConfirm]
    exact hap
  have h5 : PlayingInv ((if !(doConfirm g f t).1.isEmpty then
      doWin (doNotify (doConfirm g f t).2 valid aIdx f t (doConfirm g f t).1) aIdx t
        (doConfirm g f t).1
    else (draw_card (doNotify (doConfirm g f t).2 valid aIdx f t
      (doConfirm g f t).1) aIdx 1).1)).players := by
    split
    · exact playingInv_doWin _ aIdx t _ h3 hap4
    · exact playingInv_draw _ aIdx 1 h3 hap4
  exact playingInv_doBook _ aIdx h5

theorem playing_phase1_ne (g : GameState) (i : Nat) (hne : i ≠ g.active_player_idx) :
    (((phase1 g).1.players.getD i default)).playing
      = ((g.players.getD i default)).playing := by
  unfold phase1
  dsimp only
  split
  · show ((((draw_card g g.active_player_idx 1).1.players.set g.active_player_idx
        _).getD i default)).playing = _
    rw [getD_set_eq_ite, if_neg (by tauto)]
    exact playing_draw_card g _ 1 i
  · rfl

theorem playingInv_do_turn (g : GameState) (ask : AskFn) (hask : AskOnlySeen ask)
    (h : PlayingInv g.players) : PlayingInv (do_turn g ask).players := by
  unfold do_turn
  dsimp only
  have hph := playingInv_phase1 g h
  split
  case isTrue hp =>
    have hreq := hask g.active_player_idx (validIdxs (phase1 g).1)
      ((phase1 g).1.players.getD g.active_player_idx default)
    apply playingInv_runRequest
    · apply playingInv_set _ _ _ hph
      intro hf
      rw [hreq.2.2] at hf
      rw [hreq.1]
      exact playingInv_getD_imp _ hph _ hf
    · rw [getD_set_eq_ite]
      split
      case isTrue hc =>
        rw [hreq.2.2]
        have hlt : g.active_player_idx < g.players.length := by
          have := hc.2
          rw [phase1_players_length] at this
          exact this
        rw [phase1_getD_playing g hlt]
        exact hp
      case isFalse hc =>
        have hnl : ¬ g.active_player_idx < (phase1 g).1.players.length := by tauto
        rw [List.getD_eq_default _ _ (le_of_not_lt hnl)]
        rfl
  case isFalse hp => exact hph

theorem dealHands_getD (cc : Nat) (ps : List PlayerState) (d : List Card) (i : Nat)
    (hi : i < ps.length) :
    (dealHands cc ps d).1.getD i default
      = { ps.getD i default with playing := true, hand := (d.drop (i * cc)).take cc } := by
  induction ps generalizing d i with
  | nil => simp at hi
  | cons p ps ih =>
    cases i with
    | zero =>
      show ({ p with playing := true, hand := d.take cc } : PlayerState) = _
      simp
    | succ n =>
      show (dealHands cc ps (d.drop cc)).1.getD n default = _
      rw [ih (d.drop cc) n (by simpa using hi)]
      have harith : (d.drop cc).drop (n * cc) = d.drop ((n + 1) * cc) := by
        rw [List.drop_drop]
        congr 1
        rw [Nat.succ_mul]
        exact Nat.add_comm _ _
      rw [harith]
      rfl

theorem setup_players_length (roster : List PlayerState) (shuffled : List Card) :
    (setup_game (initGame roster) shuffled).players.length = roster.length := by
  show (dealHands _ roster shuffled).1.length = roster.length
  exact dealHands_length _ roster shuffled

theorem playingInv_setup (roster : List PlayerState) (shuffled : List Card) :
    PlayingInv (setup_game (initGame roster) shuffled).players := by
  intro i hi
  have hlen : i < roster.length := by
    rw [setup_players_length] at hi
    exact hi
  show ((dealHands _ roster shuffled).1.getD i default).playing = false → _
  rw [dealHands_getD _ _ _ _ hlen]
  intro hf
  cases hf

theorem playingInv_reachable (roster : List PlayerState) (g : GameState)
    (h : Reachable roster g) : PlayingInv g.players := by
  induction h with
  | setup shuffled hperm => exact playingInv_setup roster shuffled
  | step g2 ask hask hr ih => exact playingInv_do_turn g2 ask hask ih

theorem flip_only_by_draw (g : GameState) (ask : AskFn) (i : Nat)
    (hi : i < g.players.length)
    (hfalse : (g.players.getD i default).playing = false)
    (htrue : ((do_turn g ask).players.getD i default).playing = true) :
    i = g.active_player_idx ∧ (g.players.getD i default).hand = [] ∧ g.deck ≠ [] := by
  by_cases hia : i = g.active_player_idx
  case neg =>
    exfalso
    unfold do_turn at htrue
    dsimp only at htrue
    split at htrue
    case isTrue hp =>
      have h1 := playing_mono_runRequest _ _ _ _ _ _ htrue
      have h2 : (((phase1 g).1.players.set g.active_player_idx
          (ask g.active_player_idx (validIdxs (phase1 g).1)
            ((phase1 g).1.players.getD g.active_player_idx default)).2).getD i
          default).playing = true := h1
      rw [getD_set_eq_ite, if_neg (by tauto)] at h2
      rw [playing_phase1_ne g i hia, hfalse] at h2
      cases h2
    case isFalse hp =>
      have h2 : (((phase1 g).1.players.getD i default)).playing = true := htrue
      rw [playing_phase1_ne g i hia, hfalse] at h2
      cases h2
  case pos =>
    subst hia
    have hhand : (g.players.getD g.active_player_idx default).hand = [] := by
      by_contra hne
      have hhe : ¬ (g.players.getD g.active_player_idx default).hand.isEmpty = true := by
        simpa [List.isEmpty_iff] using hne
      unfold do_turn at htrue
      dsimp only at htrue
      rw [phase1_not_empty g hhe] at htrue
      dsimp only at htrue
      rw [if_neg (by rw [hfalse]; simp)] at htrue
      have h2 : (g.players.getD g.active_player_idx default).playing = true := htrue
      rw [hfalse] at h2
      cases h2
    refine ⟨rfl, hhand, ?_⟩
    intro hdk
    have hdr : draw_card g g.active_player_idx 1 = (g, false) := by
      unfold draw_card
      rw [if_neg (by rw [hdk]; simp)]
    have hph : phase1 g = ({ g with players := (g.players.set g.active_player_idx
        { g.players.getD g.active_player_idx default with playing := false }) },
        { g.players.getD g.active_player_idx default with playing := false }) := by
      unfold phase1
      dsimp only
      rw [if_pos (by rw [hhand]; rfl)]
      rw [hdr]
    unfold do_turn at htrue
    dsimp only at htrue
    rw [hph] at htrue
    dsimp only at htrue
    rw [if_neg (by simp)] at htrue
    have h2 : ((g.players.set g.active_player_idx
        { g.players.getD g.active_player_idx default with playing := false }).getD
        g.active_player_idx default).playing = true := htrue
    rw [getD_set_eq_ite, if_pos ⟨rfl, hi⟩] at h2
    cases h2

/-- C5: in every game state reachable from `setup_game` by a sequence of
`do_turn` calls, every player whose `playing` flag is false has an empty
hand; and across one further `do_turn`, a player's `playing` flag changes
from false to true only by drawing a card: the flipped player must be the
active player, must have held an empty hand, and the deck must have been
non-empty (the successful forced draw is what set the flag). -/
theorem C5_playing_false_empty_hand (roster : List PlayerState) (g : GameState)
    (h : Reachable roster g) :
    (∀ p ∈ g.players, p.playing = false → p.hand = []) ∧
    (∀ ask : AskFn, AskOnlySeen ask → ∀ i, i < g.players.length →
      (g.players.getD i default).playing = false →
      ((do_turn g ask).players.getD i default).playing = true →
      i = g.active_player_idx ∧ (g.players.getD i default).hand = [] ∧ g.deck ≠ []) := by
  have hpi := playingInv_reachable roster g h
  constructor
  · intro p hp hpf
    rcases List.mem_iff_getElem.mp hp with ⟨j, hjlen, hjg⟩
    have hj := hpi j hjlen
    rw [List.getD_eq_getElem _ _ hjlen, hjg] at hj
    exact hj hpf
  · intro ask _ i hi hf ht
    exact flip_only_by_draw g ask i hi hf ht

/-- Witness for C5: the freshly set-up two-player game (identity shuffle). -/
theorem C5_playing_false_empty_hand_witness :
    (∀ p ∈ (setup_game (initGame [default, default]) BASE_DECK).players,
        p.playing = false → p.hand = []) ∧
    (∀ ask : AskFn, AskOnlySeen ask → ∀ i,
      i < (setup_game (initGame [default, default]) BASE_DECK).players.length →
      ((setup_game (initGame [default, default]) BASE_DECK).players.getD i default).playing
        = false →
      ((do_turn (setup_game (initGame [default, default]) BASE_DECK) ask).players.getD i
        default).playing = true →
      i = (setup_game (initGame [default, default]) BASE_DECK).active_player_idx ∧
      ((setup_game (initGame [default, default]) BASE_DECK).players.getD i default).hand = [] ∧
      (setup_game (initGame [default, default]) BASE_DECK).deck ≠ []) :=
  C5_playing_false_empty_hand [default, default] _
    (Reachable.setup BASE_DECK (List.Perm.refl BASE_DECK))

/-! ## The target's fate in a successful request (for C2) -/

theorem doWin_tgt_slot (G : GameState) (aIdx tgt : Nat) (won : List Card)
    (hneq : tgt ≠ aIdx) (hT : tgt < G.players.length) (hdeck : G.deck = []) :
    (doWin G aIdx tgt won).players.getD tgt default
      = if (G.players.getD tgt default).hand.isEmpty then
          { G.players.getD tgt default with playing := false }
        else G.players.getD tgt default := by
  unfold doWin
  dsimp only
  have hslot : ((G.players.set aIdx { G.players.getD aIdx default with
      hand := (G.players.getD aIdx default).hand ++ won }).getD tgt default)
      = G.players.getD tgt default := by
    rw [getD_set_eq_ite, if_neg (fun hc => hneq hc.1.symm)]
  rw [if_pos (show G.deck.isEmpty = true by rw [hdeck]; rfl)]
  rw [getD_elimIfEmpty, if_neg (fun hc => hneq hc.1.symm)]
  rw [getD_elimIfEmpty]
  have hlen1 : (G.players.set aIdx { G.players.getD aIdx default with
      hand := (G.players.getD aIdx default).hand ++ won }).length = G.players.length := by
    simp
  by_cases hie : (G.players.getD tgt default).hand.isEmpty = true
  · rw [if_pos ⟨rfl, by rw [hlen1]; exact hT, by rw [hslot]; exact hie⟩, hslot, if_pos hie]
  · rw [if_neg (by rw [hslot, hlen1]; tauto), hslot, if_neg hie]

theorem runRequest_tgt_slot (G : GameState) (valid : List Nat) (aIdx : Nat) (face : Rank)
    (tgt : Nat) (hT : tgt < G.players.length) (hneq : tgt ≠ aIdx)
    (hwon : (G.players.getD tgt default).hand.filter (fun c => c.1 == face) ≠ [])
    (hdeck : G.deck = []) :
    (runRequest G valid aIdx face tgt).players.getD tgt default
      = if ((G.players.getD tgt default).hand.filter fun c => !(c.1 == face)).isEmpty then
          { G.players.getD tgt default with
            hand := (G.players.getD tgt default).hand.filter fun c => !(c.1 == face),
            playing := false }
        else
          { G.players.getD tgt default with
            hand := (G.players.getD tgt default).hand.filter fun c => !(c.1 == face) } := by
  unfold runRequest
  dsimp only
  have hXf : (doConfirm G face tgt).1.isEmpty = false := by
    have h0 : (doConfirm G face tgt).1
        = (G.players.getD tgt default).hand.filter (fun c => c.1 == face) := rfl
    rw [h0, Bool.eq_false_iff]
    intro hx
    exact hwon (List.isEmpty_iff.mp hx)
  rw [if_pos (by rw [hXf]; rfl)]
  have hG4t : (doNotify (doConfirm G face tgt).2 valid aIdx face tgt
      (doConfirm G face tgt).1).players.getD tgt default
      = { G.players.getD tgt default with
          hand := (G.players.getD tgt default).hand.filter fun c => !(c.1 == face) } := by
    rw [getD_doNotify _ _ _ _ _ _ _ (by rw [players_length_doConfirm]; exact hT)]
    rw [if_neg (fun hc => hc.2.2 rfl)]
    rw [getD_doConfirm, if_pos ⟨rfl, hT⟩]
  have hG4deck : (doNotify (doConfirm G face tgt).2 valid aIdx face tgt
      (doConfirm G face tgt).1).deck = [] := by
    rw [deck_doNotify, deck_doConfirm]
    exact hdeck
  have hG4len : tgt < (doNotify (doConfirm G face tgt).2 valid aIdx face tgt
      (doConfirm G face tgt).1).players.length := by
    rw [players_length_doNotify, players_length_doConfirm]
    exact hT
  have hbook : ((doBook (doWin (doNotify (doConfirm G face tgt).2 valid aIdx face tgt
      (doConfirm G face tgt).1) aIdx tgt (doConfirm G face tgt).1) aIdx).players.getD tgt
      default)
      = (doWin (doNotify (doConfirm G face tgt).2 valid aIdx face tgt
        (doConfirm G face tgt).1) aIdx tgt (doConfirm G face tgt).1).players.getD tgt
        default := by
    show ((doWin _ aIdx tgt _).players.set aIdx _).getD tgt default = _
    rw [getD_set_eq_ite, if_neg (fun hc => hneq hc.1.symm)]
  show ((doBook (doWin _ aIdx tgt _) aIdx).players.getD tgt default) = _
  rw [hbook]
  rw [doWin_tgt_slot _ aIdx tgt _ hneq hG4len hG4deck]
  rw [hG4t]

/-- C2 counterexample: in `do_turn gC2 askC2` the active player makes a
request (their hand is non-empty and they are playing), the request fails
(player 1 has no cards), and the deck is empty after the exchange — yet at
the end of the turn the target (player 1) still has `playing = true` with an
empty hand.  The claim "any of {active player, target} whose hand is empty
has its playing flag set to false" is therefore false as stated: the
elimination check of `do_turn` runs only inside the `if won_cards:` branch,
so a failed request performs no elimination even on an empty deck. -/
theorem C2_counterexample :
    (do_turn gC2 askC2).deck = [] ∧
    ((do_turn gC2 askC2).players.getD 1 default).hand = [] ∧
    ((do_turn gC2 askC2).players.getD 1 default).playing = true := by
  decide

/-- C2 amended: the elimination check runs only when the request succeeds.
If in a `do_turn` the active player makes a request (non-empty hand, still
playing) against a distinct playing target, the request wins cards, and the
deck is empty, then at the end of the turn the target's `playing` flag is
false exactly when its hand is empty.  (When the request fails, no
elimination happens at all, even on an empty deck — that is the
counterexample to the claim as stated; and the active player, having just
received cards, can never be empty-handed at the elimination check.) -/
theorem C2_elimination_amended (g : GameState) (ask : AskFn) (face : Rank) (tgt : Nat)
    (p2 : PlayerState)
    (hT : tgt < g.players.length)
    (hneq : tgt ≠ g.active_player_idx)
    (hhand : (g.players.getD g.active_player_idx default).hand ≠ [])
    (hplay : (g.players.getD g.active_player_idx default).playing = true)
    (htplay : (g.players.getD tgt default).playing = true)
    (hask : ask g.active_player_idx (validIdxs g) (g.players.getD g.active_player_idx default)
      = ((face, tgt), p2))
    (hwon : (g.players.getD tgt default).hand.filter (fun c => c.1 == face) ≠ [])
    (hdeck : g.deck = []) :
    (((do_turn g ask).players.getD tgt default).hand = [] ↔
      ((do_turn g ask).players.getD tgt default).playing = false) := by
  have hhe : ¬ (g.players.getD g.active_player_idx default).hand.isEmpty = true := by
    simpa [List.isEmpty_iff] using hhand
  unfold do_turn
  dsimp only
  rw [phase1_not_empty g hhe]
  dsimp only
  rw [if_pos hplay]
  rw [hask]
  dsimp only
  have hg2t : ((g.players.set g.active_player_idx p2).getD tgt default)
      = g.players.getD tgt default := by
    rw [getD_set_eq_ite, if_neg (fun hc => hneq hc.1.symm)]
  have hT2 : tgt < ({ g with players := g.players.set g.active_player_idx p2 }
      : GameState).players.length := by
    show tgt < (g.players.set g.active_player_idx p2).length
    rw [List.length_set]
    exact hT
  have hw2 : (({ g with players := g.players.set g.active_player_idx p2 }
      : GameState).players.getD tgt default).hand.filter (fun c => c.1 == face) ≠ [] := by
    show ((g.players.set g.active_player_idx p2).getD tgt default).hand.filter _ ≠ []
    rw [hg2t]
    exact hwon
  have hd2 : ({ g with players := g.players.set g.active_player_idx p2 }
      : GameState).deck = [] := hdeck
  rw [runRequest_tgt_slot _ (validIdxs g) g.active_player_idx face tgt hT2 hneq hw2 hd2]
  rw [hg2t]
  by_cases hie : ((g.players.getD tgt default).hand.filter fun c => !(c.1 == face)).isEmpty
      = true
  · rw [if_pos hie]
    constructor
    · intro _
      rfl
    · intro _
      exact List.isEmpty_iff.mp hie
  · rw [if_neg hie]
    constructor
    · intro hx
      have hx2 : (g.players.getD tgt default).hand.filter (fun c => !(c.1 == face)) = [] := hx
      exact absurd (show (((g.players.getD tgt default).hand.filter
        fun c => !(c.1 == face)).isEmpty = true) from by rw [hx2] ; rfl) hie
    · intro hp
      have hpf : (g.players.getD tgt default).playing = false := hp
      rw [htplay] at hpf
      cases hpf

/-- Witness for the amended C2: player 0 wins player 1's only card with the
deck empty; player 1 ends the turn empty-handed and is indeed eliminated. -/
theorem C2_elimination_amended_witness :
    (((do_turn gC2w askC2).players.getD 1 default).hand = [] ↔
      ((do_turn gC2w askC2).players.getD 1 default).playing = false) :=
  C2_elimination_amended gC2w askC2 0 1 (gC2w.players.getD 0 default)
    (by decide) (by decide) (by decide) (by decide) (by decide) rfl (by decide) rfl

/-! ## C1: the hear_confirm notification never clears memory -/

/-- C1: `do_turn` calls `hear_confirm(active_player, bool(won_cards), r_face,
r_player)` against the signature `hear_confirm(self, a_player, face,
r_player, result)`, so the Boolean success flag is bound to `face` and the
target player object to `result`.  The guard
`result and a_player.count_copies(face) == 4` then compares card ranks with
a Boolean and never holds, so the `seen` entry is never cleared.  At the
concrete input `gC1` the request for rank 0 succeeds and the asker completes
the book of rank 0 in the same turn (their books become `[0]` and their hand
empties), yet the observing player 2's memory for rank 0 still records the
asker (player 0) instead of the cleared marker the claim requires.  The last
conjunct shows the scrambled call is the identity on the observer in
general. -/
theorem C1_hear_confirm_never_clears :
    (((do_turn gC1 askC2).players.getD 2 default).seen 0 = some (some 0)) ∧
    ((do_turn gC1 askC2).players.getD 0 default).books = [(0 : Rank)] ∧
    ((do_turn gC1 askC2).players.getD 0 default).hand = [] ∧
    (∀ (p a : PlayerState) (b : Bool) (rp : PyV) (t : Nat),
      hear_confirm p a (PyV.bool b) rp (PyV.player t) = p) := by
  refine ⟨by decide, by decide, by decide, ?_⟩
  intro p a b rp t
  simp [hear_confirm, count_copies, pyEqRank]

/-! ## C3: the deal -/

theorem dealHands_deck (cc : Nat) (ps : List PlayerState) (d : List Card) :
    (dealHands cc ps d).2 = d.drop (ps.length * cc) := by
  induction ps generalizing d with
  | nil => simp [dealHands]
  | cons p ps ih =>
    show (dealHands cc ps (d.drop cc)).2 = _
    rw [ih (d.drop cc), List.drop_drop]
    congr 1
    rw [List.length_cons, Nat.succ_mul]
    exact Nat.add_comm _ _

/-- C3 counterexample: with 11 players and the identity shuffle (`BASE_DECK`
itself), player 10 receives only 2 cards although the claim promises 5 for
every roster with more than 4 players; and player 1's hand is the
consecutive block `shuffled[5:10]`, not the round-robin hand
`shuffled[1], shuffled[12], …` the claim's "round-robin" wording describes. -/
theorem C3_counterexample :
    ((setup_game (initGame roster11) BASE_DECK).players.getD 10 default).hand.length = 2 ∧
    ((setup_game (initGame roster11) BASE_DECK).players.getD 1 default).hand
      ≠ specRoundRobinHand BASE_DECK 11 5 1 := by
  decide

/-- C3 amended: `setup_game` shuffles the deck and then deals consecutive
blocks of the shuffled deck in roster order — player `i` receives
`shuffled[i*cc : (i+1)*cc]` with `cc = 5` if the roster has more than 4
players and `cc = 7` otherwise.  For rosters of 2 to 10 players every player
receives exactly `cc` cards and `52 - n*cc` cards remain in the deck (with
11 or more players later players receive fewer — see the counterexample);
in particular for `n = 6` each player receives 5 cards, 30 cards are dealt
and 22 remain. -/
theorem C3_deal_amended (roster : List PlayerState) (shuffled : List Card)
    (h2 : 2 ≤ roster.length) (h10 : roster.length ≤ 10)
    (hperm : shuffled.Perm BASE_DECK) :
    (∀ i, i < roster.length →
      ((setup_game (initGame roster) shuffled).players.getD i default).hand
        = (shuffled.drop (i * (if 4 < roster.length then 5 else 7))).take
            (if 4 < roster.length then 5 else 7) ∧
      ((setup_game (initGame roster) shuffled).players.getD i default).hand.length
        = (if 4 < roster.length then 5 else 7)) ∧
    (setup_game (initGame roster) shuffled).deck.length
      = 52 - roster.length * (if 4 < roster.length then 5 else 7) ∧
    (roster.length = 6 →
      cardsInHands (setup_game (initGame roster) shuffled) = 30 ∧
      (setup_game (initGame roster) shuffled).deck.length = 22) := by
  have hlen52 : shuffled.length = 52 := by
    rw [hperm.length_eq]
    decide
  have hhand : ∀ i, i < roster.length →
      ((setup_game (initGame roster) shuffled).players.getD i default).hand
        = (shuffled.drop (i * (if 4 < roster.length then 5 else 7))).take
            (if 4 < roster.length then 5 else 7) := by
    intro i hi
    show ((dealHands _ roster shuffled).1.getD i default).hand = _
    rw [dealHands_getD _ _ _ _ hi]
    rfl
  have hcc : ∀ i, i < roster.length →
      i * (if 4 < roster.length then 5 else 7) + (if 4 < roster.length then 5 else 7) ≤ 52 := by
    intro i hi
    by_cases hn : 4 < roster.length
    · rw [if_pos hn]
      omega
    · rw [if_neg hn]
      omega
  have hlens : ∀ i, i < roster.length →
      ((setup_game (initGame roster) shuffled).players.getD i default).hand.length
        = (if 4 < roster.length then 5 else 7) := by
    intro i hi
    rw [hhand i hi, List.length_take, List.length_drop, hlen52]
    have := hcc i hi
    omega
  have hdeck : (setup_game (initGame roster) shuffled).deck.length
      = 52 - roster.length * (if 4 < roster.length then 5 else 7) := by
    show (dealHands _ roster shuffled).2.length = _
    rw [dealHands_deck, List.length_drop, hlen52]
    rfl
  refine ⟨fun i hi => ⟨hhand i hi, hlens i hi⟩, hdeck, ?_⟩
  intro h6
  have hcc6 : (if 4 < roster.length then 5 else 7) = 5 := by
    rw [if_pos (by omega)]
  have hsum := congrArg Multiset.card
    (dealHands_hands_m (if 4 < roster.length then 5 else 7) roster shuffled)
  rw [Multiset.card_add, card_handsM] at hsum
  have hc1 : Multiset.card (((dealHands (if 4 < roster.length then 5 else 7) roster
      shuffled).2 : List Card) : Multiset Card)
      = (dealHands (if 4 < roster.length then 5 else 7) roster shuffled).2.length := by
    simp
  have hc2 : Multiset.card ((shuffled : List Card) : Multiset Card) = 52 := by
    simp [hlen52]
  rw [hc1, hc2] at hsum
  have hdeck6 : (setup_game (initGame roster) shuffled).deck.length = 22 := by
    rw [hdeck, h6]
    decide
  constructor
  · have hgoal : cardsInHands (setup_game (initGame roster) shuffled)
        = (List.map (fun p => p.hand.length)
            (dealHands (if 4 < roster.length then 5 else 7) roster shuffled).1).sum := rfl
    rw [hgoal]
    have hdeq : (setup_game (initGame roster) shuffled).deck.length
        = (dealHands (if 4 < roster.length then 5 else 7) roster shuffled).2.length := rfl
    rw [hdeq] at hdeck6
    omega
  · exact hdeck6

/-- Witness for the amended C3: a 6-player game with the identity shuffle
deals 30 cards and leaves 22 in the deck. -/
theorem C3_deal_amended_witness :
    cardsInHands (setup_game (initGame roster6) BASE_DECK) = 30 ∧
    (setup_game (initGame roster6) BASE_DECK).deck.length = 22 :=
  (C3_deal_amended roster6 BASE_DECK (by decide) (by decide) (List.Perm.refl BASE_DECK)).2.2
    (by decide)

/-! ## C6: the winner accessor -/

theorem foldr_max_ub (l : List Nat) (x : Nat) (hx : x ∈ l) : x ≤ l.foldr max 0 := by
  induction l with
  | nil => cases hx
  | cons a t ih =>
    rcases List.mem_cons.mp hx with h | h
    · subst h
      exact Nat.le_max_left _ _
    · exact (ih h).trans (Nat.le_max_right _ _)

theorem foldr_max_mem (l : List Nat) (h : l ≠ []) : l.foldr max 0 ∈ l := by
  induction l with
  | nil => exact absurd rfl h
  | cons a t ih =>
    cases t with
    | nil => simp
    | cons b t2 =>
      rcases Nat.le_total a ((b :: t2).foldr max 0) with hle | hle
      · have : (a :: b :: t2).foldr max 0 = (b :: t2).foldr max 0 := by
          show max a _ = _
          exact Nat.max_eq_right hle
        rw [this]
        exact List.mem_cons_of_mem a (ih (by simp))
      · have : (a :: b :: t2).foldr max 0 = a := by
          show max a _ = _
          exact Nat.max_eq_left hle
        rw [this]
        exact List.mem_cons_self a _

/-- C6: for a roster of at least 2 players, `winner` returns `None` whenever
the game is not done, and once the game is done it returns the non-empty
list of exactly those players whose book count equals the maximum book count
over all players (ties giving several winners). -/
theorem C6_winner (g : GameState) (h2 : 2 ≤ g.players.length) :
    (done g = false → winner g = none) ∧
    (done g = true → ∃ ws, winner g = some ws ∧ ws ≠ [] ∧
      (∀ p ∈ ws, p ∈ g.players ∧ p.books.length = maxBooks g) ∧
      (∀ p ∈ g.players, p.books.length = maxBooks g → p ∈ ws) ∧
      (∀ p ∈ g.players, p.books.length ≤ maxBooks g) ∧
      (∃ p ∈ g.players, p.books.length = maxBooks g)) := by
  constructor
  · intro hd
    unfold winner
    rw [if_neg (by rw [hd]; simp)]
  · intro hd
    have hne : g.players ≠ [] := by
      intro e
      rw [e] at h2
      simp at h2
    have hmapne : (g.players.map fun p => p.books.length) ≠ [] := by simpa using hne
    have hmem : maxBooks g ∈ g.players.map fun p => p.books.length :=
      foldr_max_mem _ hmapne
    rcases List.mem_map.mp hmem with ⟨p0, hp0, hp0e⟩
    refine ⟨g.players.filter fun p => p.books.length == maxBooks g, ?_, ?_, ?_, ?_, ?_,
      ⟨p0, hp0, hp0e⟩⟩
    · unfold winner
      rw [if_pos hd]
    · exact List.ne_nil_of_mem (List.mem_filter.mpr ⟨hp0, by simp [hp0e]⟩)
    · intro p hp
      have hm := List.mem_filter.mp hp
      exact ⟨hm.1, by simpa using hm.2⟩
    · intro p hp he
      exact List.mem_filter.mpr ⟨hp, by simp [he]⟩
    · intro p hp
      exact foldr_max_ub _ _ (List.mem_map_of_mem _ hp)

/-- Witness for C6: in the finished game `gC6`, player 0 (one book, the
maximum) is the unique winner. -/
theorem C6_winner_witness :
    ∃ ws, winner gC6 = some ws ∧ ws ≠ [] ∧
      (∀ p ∈ ws, p ∈ gC6.players ∧ p.books.length = maxBooks gC6) ∧
      (∀ p ∈ gC6.players, p.books.length = maxBooks gC6 → p ∈ ws) ∧
      (∀ p ∈ gC6.players, p.books.length ≤ maxBooks gC6) ∧
      (∃ p ∈ gC6.players, p.books.length = maxBooks gC6) :=
  (C6_winner gC6 (by decide)).2 (by decide)

/-! ## C7: the memorizing strategy -/

theorem mem_informedOptions_elim (p : PlayerState) (cands : List Nat) (f : Rank)
    (hf : f ∈ informedOptions p cands) :
    (∃ c ∈ p.hand, c.1 = f) ∧ ∃ i, p.seen f = some (some i) ∧ i ∈ cands := by
  have hpred := (List.mem_filter.mp hf).2
  rw [Bool.and_eq_true, Bool.and_eq_true] at hpred
  obtain ⟨⟨hsome, hany⟩, hmatch⟩ := hpred
  constructor
  · rcases List.any_eq_true.mp hany with ⟨c, hc, hce⟩
    exact ⟨c, hc, by simpa using hce⟩
  · cases hs : p.seen f with
    | none =>
      rw [hs] at hsome
      cases hsome
    | some v =>
      cases v with
      | none =>
        rw [hs] at hmatch
        have hfb : (false : Bool) = true := hmatch
        cases hfb
      | some i =>
        rw [hs] at hmatch
        have hcb : cands.contains i = true := hmatch
        exact ⟨i, rfl, by simpa using hcb⟩

/-- C7: `hear_ask` records the asker as the memory entry for the requested
rank (other entries untouched); whenever `TryingPlayer.ask_for_card` runs
with a non-empty informed set — ranks the player holds at least one card of
whose recorded holder is in the candidate list — it picks one of those
ranks, targets exactly the recorded holder (a member of the candidates),
and pops that memory entry (other entries untouched); and with an empty
informed set it falls back to `DumbPlayer.ask_for_card` with memory
unchanged. -/
theorem C7_memorizing_strategy :
    (∀ (p : PlayerState) (a : Nat) (face : Rank) (r : Nat),
      (hear_ask p a face r).seen face = some (some a) ∧
      ∀ f2, f2 ≠ face → (hear_ask p a face r).seen f2 = p.seen f2) ∧
    (∀ (p : PlayerState) (selfIdx : Nat) (cands : List Nat) (k k1 k2 : Nat),
      informedOptions p cands ≠ [] →
      (TryingPlayer.ask_for_card p selfIdx cands k k1 k2).1.1 ∈ informedOptions p cands ∧
      p.seen (TryingPlayer.ask_for_card p selfIdx cands k k1 k2).1.1
        = some (some (TryingPlayer.ask_for_card p selfIdx cands k k1 k2).1.2) ∧
      (TryingPlayer.ask_for_card p selfIdx cands k k1 k2).1.2 ∈ cands ∧
      (∃ c ∈ p.hand, c.1 = (TryingPlayer.ask_for_card p selfIdx cands k k1 k2).1.1) ∧
      (TryingPlayer.ask_for_card p selfIdx cands k k1 k2).2.seen
        (TryingPlayer.ask_for_card p selfIdx cands k k1 k2).1.1 = none ∧
      (∀ f2, f2 ≠ (TryingPlayer.ask_for_card p selfIdx cands k k1 k2).1.1 →
        (TryingPlayer.ask_for_card p selfIdx cands k k1 k2).2.seen f2 = p.seen f2)) ∧
    (∀ (p : PlayerState) (selfIdx : Nat) (cands : List Nat) (k k1 k2 : Nat),
      informedOptions p cands = [] →
      TryingPlayer.ask_for_card p selfIdx cands k k1 k2
        = (DumbPlayer.ask_for_card p selfIdx cands k1 k2, p)) := by
  refine ⟨?_, ?_, ?_⟩
  · intro p a face r
    constructor
    · show (if face = face then some (some a) else p.seen face) = some (some a)
      rw [if_pos rfl]
    · intro f2 hf2
      show (if f2 = face then some (some a) else p.seen f2) = p.seen f2
      rw [if_neg hf2]
  · intro p selfIdx cands k k1 k2 hne
    have hmem : (informedOptions p cands).getD (k % (informedOptions p cands).length) 0
        ∈ informedOptions p cands := getD_mod_mem _ _ 0 hne
    obtain ⟨hhand, i, hsi, hic⟩ := mem_informedOptions_elim p cands _ hmem
    unfold TryingPlayer.ask_for_card
    dsimp only
    rw [if_pos hne]
    dsimp only
    refine ⟨hmem, ?_, ?_, hhand, ?_, ?_⟩
    · rw [hsi]
      rfl
    · rw [hsi]
      exact hic
    · show (if (informedOptions p cands).getD (k % (informedOptions p cands).length) 0
          = (informedOptions p cands).getD (k % (informedOptions p cands).length) 0 then
          none else _) = none
      rw [if_pos rfl]
    · intro f2 hf2
      show (if f2 = (informedOptions p cands).getD (k % (informedOptions p cands).length) 0
          then none else p.seen f2) = p.seen f2
      rw [if_neg hf2]
  · intro p selfIdx cands k k1 k2 he
    unfold TryingPlayer.ask_for_card
    dsimp only
    rw [if_neg (fun hcon => hcon he)]

/-- Witness for C7: `p7` holds a rank-0 card and remembers player 1 asking
for rank 0; with candidates `[1, 2]` the informed branch fires. -/
theorem C7_memorizing_strategy_witness :
    (TryingPlayer.ask_for_card p7 0 [1, 2] 0 0 0).1.1 ∈ informedOptions p7 [1, 2] ∧
    p7.seen (TryingPlayer.ask_for_card p7 0 [1, 2] 0 0 0).1.1
      = some (some (TryingPlayer.ask_for_card p7 0 [1, 2] 0 0 0).1.2) ∧
    (TryingPlayer.ask_for_card p7 0 [1, 2] 0 0 0).1.2 ∈ [1, 2] ∧
    (∃ c ∈ p7.hand, c.1 = (TryingPlayer.ask_for_card p7 0 [1, 2] 0 0 0).1.1) ∧
    (TryingPlayer.ask_for_card p7 0 [1, 2] 0 0 0).2.seen
      (TryingPlayer.ask_for_card p7 0 [1, 2] 0 0 0).1.1 = none ∧
    (∀ f2, f2 ≠ (TryingPlayer.ask_for_card p7 0 [1, 2] 0 0 0).1.1 →
      (TryingPlayer.ask_for_card p7 0 [1, 2] 0 0 0).2.seen f2 = p7.seen f2) :=
  C7_memorizing_strategy.2.1 p7 0 [1, 2] 0 0 0 (by decide)

/-! ## C8: draw_card -/

/-- C8: `draw_card` either moves exactly the requested number of cards from
the front of the deck onto the end of the player's hand and returns `True`
(leaving the player's books, playing flag, the other players and the active
index untouched), or — when the deck holds fewer than requested — returns
`False` and changes nothing at all (no partial draw). -/
theorem C8_draw_card (g : GameState) (i n : Nat) (hi : i < g.players.length) :
    (n ≤ g.deck.length →
      (draw_card g i n).2 = true ∧
      (draw_card g i n).1.deck = g.deck.drop n ∧
      ((draw_card g i n).1.players.getD i default).hand
        = (g.players.getD i default).hand ++ g.deck.take n ∧
      (g.deck.take n).length = n ∧
      g.deck = g.deck.take n ++ (draw_card g i n).1.deck ∧
      ((draw_card g i n).1.players.getD i default).books
        = (g.players.getD i default).books ∧
      ((draw_card g i n).1.players.getD i default).playing
        = (g.players.getD i default).playing ∧
      (∀ j, j ≠ i → (draw_card g i n).1.players.getD j default = g.players.getD j default) ∧
      (draw_card g i n).1.active_player_idx = g.active_player_idx) ∧
    (g.deck.length < n → draw_card g i n = (g, false)) := by
  constructor
  · intro hd
    unfold draw_card
    rw [if_pos hd]
    dsimp only
    refine ⟨rfl, rfl, ?_, ?_, ?_, ?_, ?_, ?_, rfl⟩
    · rw [getD_set_self _ _ _ _ hi]
    · rw [List.length_take]
      omega
    · rw [List.take_append_drop]
    · rw [getD_set_self _ _ _ _ hi]
    · rw [getD_set_self _ _ _ _ hi]
    · intro j hj
      rw [getD_set_ne _ _ _ _ _ (fun e => hj e.symm)]
  · intro hd
    unfold draw_card
    rw [if_neg (by omega)]

/-- Witness for C8: drawing one card for player 0 from the full deck of a
fresh 6-player game. -/
theorem C8_draw_card_witness :
    (1 ≤ (initGame roster6).deck.length →
      (draw_card (initGame roster6) 0 1).2 = true ∧
      (draw_card (initGame roster6) 0 1).1.deck = (initGame roster6).deck.drop 1 ∧
      ((draw_card (initGame roster6) 0 1).1.players.getD 0 default).hand
        = ((initGame roster6).players.getD 0 default).hand ++ (initGame roster6).deck.take 1 ∧
      ((initGame roster6).deck.take 1).length = 1 ∧
      (initGame roster6).deck
        = (initGame roster6).deck.take 1 ++ (draw_card (initGame roster6) 0 1).1.deck ∧
      ((draw_card (initGame roster6) 0 1).1.players.getD 0 default).books
        = ((initGame roster6).players.getD 0 default).books ∧
      ((draw_card (initGame roster6) 0 1).1.players.getD 0 default).playing
        = ((initGame roster6).players.getD 0 default).playing ∧
      (∀ j, j ≠ 0 → (draw_card (initGame roster6) 0 1).1.players.getD j default
        = (initGame roster6).players.getD j default) ∧
      (draw_card (initGame roster6) 0 1).1.active_player_idx
        = (initGame roster6).active_player_idx) ∧
    ((initGame roster6).deck.length < 1 → draw_card (initGame roster6) 0 1
      = (initGame roster6, false)) :=
  C8_draw_card (initGame roster6) 0 1 (by decide)

/-! ## C9: confirm_ask -/

/-- C9: `confirm_ask` removes and returns all cards of the requested rank:
afterwards the hand holds no card of that rank, every returned card has the
requested rank, the returned cards together with the remaining hand are a
permutation of the original hand (exactly the removed cards are returned),
and books and the playing flag are untouched. -/
theorem C9_confirm_ask (p : PlayerState) (face : Rank) :
    countRank (confirm_ask p face).2.hand face = 0 ∧
    (∀ c ∈ (confirm_ask p face).1, c.1 = face) ∧
    ((confirm_ask p face).1 ++ (confirm_ask p face).2.hand).Perm p.hand ∧
    (confirm_ask p face).2.books = p.books ∧
    (confirm_ask p face).2.playing = p.playing := by
  refine ⟨?_, ?_, List.filter_append_perm _ p.hand, rfl, rfl⟩
  · show (List.filter (fun c => c.1 == face)
      (List.filter (fun c => !(c.1 == face)) p.hand)).length = 0
    rw [List.length_eq_zero, List.filter_eq_nil_iff]
    intro a ha
    have hm := (List.mem_filter.mp ha).2
    intro hcon
    rw [hcon] at hm
    cases hm
  · intro c hc
    have hm := (List.mem_filter.mp hc).2
    simpa using hm

/-! ## C10: setup_game and the book lists -/

theorem dealHands_books_map (cc : Nat) (ps : List PlayerState) (d : List Card) :
    (dealHands cc ps d).1.map (fun p => p.books) = ps.map fun p => p.books := by
  induction ps generalizing d with
  | nil => rfl
  | cons p ps ih =>
    show ({ p with playing := true, hand := d.take cc }
        :: (dealHands cc ps (d.drop cc)).1).map (fun p => p.books) = _
    rw [List.map_cons, List.map_cons, ih (d.drop cc)]

theorem dealHands_playing (cc : Nat) (ps : List PlayerState) (d : List Card) :
    ∀ p ∈ (dealHands cc ps d).1, p.playing = true := by
  induction ps generalizing d with
  | nil => intro p hp; cases hp
  | cons q ps ih =>
    intro p hp
    rcases List.mem_cons.mp hp with h | h
    · rw [h]
    · exact ih (d.drop cc) p h

/-- C10: `setup_game` never touches the players' book lists — it replaces
every hand, sets every `playing` flag to true and resets the active index
to 0, but each player keeps the books of the previous game, so reusing the
same player objects for a second game carries the old books into the new
game's winner computation. -/
theorem C10_setup_keeps_books (g : GameState) (shuffled : List Card) :
    (setup_game g shuffled).players.map (fun p => p.books)
      = g.players.map (fun p => p.books) ∧
    (setup_game g shuffled).active_player_idx = 0 ∧
    (∀ p ∈ (setup_game g shuffled).players, p.playing = true) ∧
    (setup_game g shuffled).players.length = g.players.length := by
  refine ⟨?_, rfl, ?_, ?_⟩
  · show (dealHands _ g.players shuffled).1.map (fun p => p.books) = _
    exact dealHands_books_map _ g.players shuffled
  · show ∀ p ∈ (dealHands _ g.players shuffled).1, p.playing = true
    exact dealHands_playing _ g.players shuffled
  · show (dealHands _ g.players shuffled).1.length = _
    exact dealHands_length _ g.players shuffled
